import Mathlib

/-! # Message registry and codec (`network/protobuf/protobuf.go`)

A shallow embedding of the `Processor` type of package `protobuf`: the two
lookup maps, the byte-order flag, registration, `Marshal`, `Unmarshal` and
`Route`.

Conventions of the embedding:

* `uint16` and `byte` values are natural numbers; conversions that truncate in
  Go are written with an explicit `% 65536` or `% 256`.
* A Go `map` is an association list (`GoMap`); `len` is its length, an
  assignment to an existing key replaces the entry in place and an assignment
  to a new key adds an entry.
* `log.Fatal` (which ends the process) and runtime panics are the two kinds of
  `Abort`; a function that may abort returns `Except Abort _`.
* Go's `(value, error)` results are pairs whose components are `Option`s,
  `none` standing for `nil`.
* Handlers and routers are external callbacks: they are named by a number and
  `Route` returns the list of the calls it makes, in order.
* The payload serializer (`proto.Marshal`, `proto.UnmarshalMerge`) is an
  external library and is a parameter (`Codec`).
* Console and log output (`PrintRouteInfo`, `fmt.Printf`) is not modelled.
-/

namespace protobuf

/-! ## Go maps -/

/-- Go map as an association list. -/
abbrev GoMap (κ : Type) (ν : Type) := List (κ × ν)

namespace GoMap

variable {κ ν : Type} [DecidableEq κ]

/-- Map lookup `m[k]` in its two-result form: `none` when the key is absent. -/
def get? : GoMap κ ν → κ → Option ν
  | [], _ => none
  | (k', v) :: rest, k => if k' = k then some v else get? rest k

/-- Size of the map, Go's `len(m)`. -/
def len (m : GoMap κ ν) : Nat := m.length

/-- Assignment `m[k] = v`: replaces the entry of an existing key, adds one otherwise. -/
def set (m : GoMap κ ν) (k : κ) (v : ν) : GoMap κ ν :=
  if (get? m k).isSome then m.map (fun e => if e.1 = k then (k, v) else e)
  else (k, v) :: m

/-- Update through the pointer stored under `k` (`m[k].field = x`): the map itself is untouched. -/
def modify (m : GoMap κ ν) (k : κ) (f : ν → ν) : GoMap κ ν :=
  m.map (fun e => if e.1 = k then (e.1, f e.2) else e)

end GoMap

/-! ## Types and values -/

/-- Non-nil `reflect.Type` values: the struct type `MsgRaw` of this package, other
named non-pointer types, and pointer types. -/
inductive RType where
  | msgRaw
  | named (n : Nat)
  | ptr (elem : RType)
  deriving DecidableEq, Repr

/-- Values of `reflect.Type`; `none` is the nil type that `reflect.TypeOf(nil)` returns. -/
abbrev ReflectType := Option RType

/-- Test `t.Kind() == reflect.Ptr`. -/
def RType.isPtr : RType → Bool
  | .ptr _ => true
  | _ => false

/-- Content of a message value, as seen by the payload serializer. -/
abbrev Content := List Nat

/-- Content of a freshly allocated value (`reflect.New`). -/
def zeroContent : Content := []

/-- Go struct `MsgRaw`. -/
structure MsgRaw where
  msgID : Nat
  msgRawData : List Nat
  deriving DecidableEq, Repr

/-- Values of `interface{}` that reach the processor: the nil interface, a `MsgRaw`
value, or a value of another dynamic type `t` with content `content`. -/
inductive Msg where
  | nil
  | raw (r : MsgRaw)
  | obj (t : RType) (content : Content)
  deriving DecidableEq, Repr

/-- Go `reflect.TypeOf`. -/
def TypeOf : Msg → ReflectType
  | .nil => none
  | .raw _ => some .msgRaw
  | .obj t _ => some t

/-- Connection context handed to `Route` (`userData interface{}`). -/
abbrev UserData := Nat

/-- Go `MsgHandler`, a function value named by a number; `none` is the nil function. -/
abbrev MsgHandler := Option Nat

/-- Go `*chanrpc.Server`, named by a number; `none` is the nil pointer. -/
abbrev Router := Option Nat

/-- Go struct `MsgInfo`. -/
structure MsgInfo where
  msgType : ReflectType
  msgRouter : Router
  msgHandler : MsgHandler
  msgRawHandler : MsgHandler
  deriving DecidableEq, Repr

/-- Go struct `Processor`. -/
structure Processor where
  littleEndian : Bool
  msgInfo : GoMap Nat MsgInfo
  msgID : GoMap ReflectType Nat
  deriving DecidableEq, Repr

/-- Go `error` values produced by the processor. -/
inductive GoError where
  | dataTooShort
  | routeNotRegistered (t : ReflectType)
  | marshalNotRegistered (t : ReflectType)
  | proto (code : Nat)
  | conn (code : Nat)
  deriving DecidableEq, Repr

/-- Ways a call ends the process or panics instead of returning. -/
inductive Abort where
  | fatalPointerRequired
  | fatalAlreadyRegistered
  | fatalTooMany
  | fatalNotRegistered
  | panicNilDeref
  | panicIndex
  | panicElem
  | panicTypeAssert
  deriving DecidableEq, Repr

/-- The abort is a `log.Fatal`, as opposed to a runtime panic. -/
def Abort.isFatal : Abort → Bool
  | .fatalPointerRequired => true
  | .fatalAlreadyRegistered => true
  | .fatalTooMany => true
  | .fatalNotRegistered => true
  | _ => false

/-- One element of the `[]interface{}` argument list of a callback. -/
inductive Arg where
  | msg (m : Msg)
  | id (n : Nat)
  | bytes (b : List Nat)
  | type (t : ReflectType)
  | userData (u : UserData)
  deriving DecidableEq, Repr

/-- Calls `Route` makes: `h(args)` on a handler, or `router.Go(id, args...)`. -/
inductive Call where
  | handler (h : Nat) (args : List Arg)
  | routerGo (r : Nat) (id : Arg) (args : List Arg)
  deriving DecidableEq, Repr

/-- The payload serializer: `proto.Marshal` and `proto.UnmarshalMerge`, each returning its
data and its `error` (`none` when it succeeds). -/
structure Codec where
  Marshal : RType → Content → List Nat × Option Nat
  UnmarshalMerge : List Nat → RType → Content → Content × Option Nat

/-! ## `encoding/binary` -/

/-- Go `math.MaxUint16`. -/
def MaxUint16 : Nat := 65535

/-- Conversion `uint16(n)` of an `int`. -/
def uint16 (n : Nat) : Nat := n % 65536

/-- Go `binary.BigEndian.Uint16`; `none` when the slice is shorter than 2 (index panic). -/
def BigEndianUint16 : List Nat → Option Nat
  | b0 :: b1 :: _ => some ((b1 % 256) + (b0 % 256) * 256)
  | _ => none

/-- Go `binary.LittleEndian.Uint16`; `none` when the slice is shorter than 2 (index panic). -/
def LittleEndianUint16 : List Nat → Option Nat
  | b0 :: b1 :: _ => some ((b0 % 256) + (b1 % 256) * 256)
  | _ => none

/-- Go `binary.BigEndian.PutUint16` on a fresh 2-byte slice. -/
def BigEndianPutUint16 (v : Nat) : List Nat := [v / 256 % 256, v % 256]

/-- Go `binary.LittleEndian.PutUint16` on a fresh 2-byte slice. -/
def LittleEndianPutUint16 (v : Nat) : List Nat := [v % 256, v / 256 % 256]

/-- An order in which one `for ... range` loop visits the entries of `msgInfo`. Go leaves the
iteration order of a map unspecified, and it may differ from one loop to the next; every
entry is visited once, so the entries visited are a rearrangement of the entries held. -/
structure MapOrder where
  visit : GoMap Nat MsgInfo → GoMap Nat MsgInfo
  perm : ∀ m, (visit m).Perm m

/-- The iteration that visits the entries as the association list holds them. -/
def MapOrder.stored : MapOrder :=
  { visit := fun m => m, perm := fun m => List.Perm.refl m }

/-- The iteration that visits the entries in the opposite order. -/
def MapOrder.reversed : MapOrder :=
  { visit := fun m => m.reverse, perm := fun m => List.reverse_perm m }

/-! ## The processor -/

/-- Go `NewProcessor`. -/
def NewProcessor : Processor :=
  { littleEndian := false, msgInfo := [], msgID := [] }

namespace Processor

/-- Go `Processor.SetByteOrder`. -/
def SetByteOrder (p : Processor) (littleEndian : Bool) : Processor :=
  { p with littleEndian := littleEndian }

/-- Go `Processor.Register`: the processor after the call and the identifier returned. -/
def Register (p : Processor) (msg : Msg) : Except Abort (Processor × Nat) :=
  match TypeOf msg with
  | none => .error .fatalPointerRequired
  | some t =>
    if !t.isPtr then .error .fatalPointerRequired
    else if (p.msgID.get? (some t)).isSome then .error .fatalAlreadyRegistered
    else if p.msgInfo.len ≥ MaxUint16 then .error .fatalTooMany
    else
      let i : MsgInfo :=
        { msgType := some t, msgRouter := none, msgHandler := none, msgRawHandler := none }
      let id := uint16 p.msgInfo.len
      .ok ({ p with msgInfo := p.msgInfo.set id i, msgID := p.msgID.set (some t) id }, id)

/-- Go `Processor.RegisterWithId`. -/
def RegisterWithId (p : Processor) (msg : Msg) (id : Nat) : Except Abort (Processor × Nat) :=
  match TypeOf msg with
  | none => .error .fatalPointerRequired
  | some t =>
    if !t.isPtr then .error .fatalPointerRequired
    else if (p.msgID.get? (some t)).isSome then .error .fatalAlreadyRegistered
    else if p.msgInfo.len ≥ MaxUint16 then .error .fatalTooMany
    else
      let i : MsgInfo :=
        { msgType := some t, msgRouter := none, msgHandler := none, msgRawHandler := none }
      .ok ({ p with msgInfo := p.msgInfo.set id i, msgID := p.msgID.set (some t) id }, id)

/-- Go `Processor.SetRouter`. -/
def SetRouter (p : Processor) (msg : Msg) (msgRouter : Router) : Except Abort Processor :=
  match p.msgID.get? (TypeOf msg) with
  | none => .error .fatalNotRegistered
  | some id =>
    match p.msgInfo.get? id with
    | none => .error .panicNilDeref
    | some _ =>
      .ok { p with msgInfo := p.msgInfo.modify id (fun i => { i with msgRouter := msgRouter }) }

/-- Go `Processor.SetHandler`. -/
def SetHandler (p : Processor) (msg : Msg) (msgHandler : MsgHandler) : Except Abort Processor :=
  match p.msgID.get? (TypeOf msg) with
  | none => .error .fatalNotRegistered
  | some id =>
    match p.msgInfo.get? id with
    | none => .error .panicNilDeref
    | some _ =>
      .ok { p with msgInfo := p.msgInfo.modify id (fun i => { i with msgHandler := msgHandler }) }

/-- Go `Processor.SetRawHandler`. -/
def SetRawHandler (p : Processor) (id : Nat) (msgRawHandler : MsgHandler) :
    Except Abort Processor :=
  if id ≥ uint16 p.msgInfo.len then .error .fatalNotRegistered
  else
    match p.msgInfo.get? id with
    | none => .error .panicNilDeref
    | some _ =>
      .ok { p with
            msgInfo := p.msgInfo.modify id (fun i => { i with msgRawHandler := msgRawHandler }) }

/-- The calls of the typed branch of `Route` for descriptor `i`: the handler, then the router. -/
def typedCalls (i : MsgInfo) (msgType : ReflectType) (msg : Msg) (userData : UserData) :
    List Call :=
  (match i.msgHandler with
    | some h => [Call.handler h [.msg msg, .userData userData]]
    | none => []) ++
  (match i.msgRouter with
    | some r => [Call.routerGo r (.type msgType) [.msg msg, .userData userData]]
    | none => [])

/-- Go `Processor.Route`: the `error` returned and the calls made, in order. -/
def Route (p : Processor) (msg : Msg) (userData : UserData) :
    Except Abort (Option GoError × List Call) :=
  match msg with
  | .raw msgRaw =>
    match p.msgInfo.get? msgRaw.msgID with
    | none => .error .panicNilDeref
    | some i =>
      match i.msgRawHandler with
      | some h =>
        .ok (none, [Call.handler h
          [.id msgRaw.msgID, .bytes msgRaw.msgRawData, .userData userData]])
      | none => .ok (none, [])
  | msg =>
    let msgType := TypeOf msg
    match p.msgID.get? msgType with
    | none => .ok (some (.routeNotRegistered msgType), [])
    | some id =>
      match p.msgInfo.get? id with
      | none => .error .panicNilDeref
      | some i => .ok (none, typedCalls i msgType msg userData)

/-- Go `Processor.Unmarshal`: the message and the `error` returned. -/
def Unmarshal (pb : Codec) (p : Processor) (data : List Nat) :
    Except Abort (Option Msg × Option GoError) :=
  if data.length < 2 then .ok (none, some .dataTooShort)
  else
    match (if p.littleEndian then LittleEndianUint16 data else BigEndianUint16 data) with
    | none => .error .panicIndex
    | some id =>
      match p.msgInfo.get? id with
      | none => .ok (none, some .dataTooShort)
      | some i =>
        if i.msgRawHandler.isSome then
          .ok (some (.raw { msgID := id, msgRawData := data.drop 2 }), none)
        else
          match i.msgType with
          | some (.ptr e) =>
            let r := pb.UnmarshalMerge (data.drop 2) (.ptr e) zeroContent
            .ok (some (.obj (.ptr e) r.1), r.2.map GoError.proto)
          | _ => .error .panicElem

/-- Go `Processor.Marshal`: the segments and the `error` returned. -/
def Marshal (pb : Codec) (p : Processor) (msg : Msg) :
    Except Abort (Option (List (List Nat)) × Option GoError) :=
  let msgType := TypeOf msg
  match p.msgID.get? msgType with
  | none => .ok (none, some (.marshalNotRegistered msgType))
  | some _id =>
    let id := if p.littleEndian then LittleEndianPutUint16 _id else BigEndianPutUint16 _id
    match msg with
    | .obj t c =>
      let r := pb.Marshal t c
      .ok (some [id, r.1], r.2.map GoError.proto)
    | _ => .error .panicTypeAssert

/-- Go `Processor.Range`: the calls `f(id, type)` made, one per descriptor, in the order
`order` in which this iteration visits the entries of `p.msgInfo`. -/
def Range (p : Processor) (order : MapOrder) : List (Nat × ReflectType) :=
  (order.visit p.msgInfo).map (fun e => (uint16 e.1, e.2.msgType))

/-- Go `Processor.GetId`. -/
def GetId (p : Processor) (msgType : ReflectType) : Nat :=
  (p.msgID.get? msgType).getD 0

/-- Go `Processor.GetMsgInfoMsgType`. -/
def GetMsgInfoMsgType (p : Processor) (id : Nat) : Except Abort ReflectType :=
  match p.msgInfo.get? id with
  | none => .error .panicNilDeref
  | some i => .ok i.msgType

end Processor

/-! ## Registries built by the registration operations -/

/-- Registries reachable from `NewProcessor` by calls that return. -/
inductive Reachable : Processor → Prop where
  | new : Reachable NewProcessor
  | setByteOrder {p : Processor} (b : Bool) : Reachable p → Reachable (p.SetByteOrder b)
  | register {p q : Processor} {msg : Msg} {id : Nat} :
      Reachable p → p.Register msg = .ok (q, id) → Reachable q
  | registerWithId {p q : Processor} {msg : Msg} {id r : Nat} :
      Reachable p → id < 65536 → p.RegisterWithId msg id = .ok (q, r) → Reachable q
  | setRouter {p q : Processor} {msg : Msg} {h : Router} :
      Reachable p → p.SetRouter msg h = .ok q → Reachable q
  | setHandler {p q : Processor} {msg : Msg} {h : MsgHandler} :
      Reachable p → p.SetHandler msg h = .ok q → Reachable q
  | setRawHandler {p q : Processor} {id : Nat} {h : MsgHandler} :
      Reachable p → id < 65536 → p.SetRawHandler id h = .ok q → Reachable q

/-- Successive `Register` calls on the messages of a list: the final processor and the
identifiers returned, in call order; the first call that aborts ends the run. -/
def registerAll : Processor → List Msg → Except Abort (Processor × List Nat)
  | p, [] => .ok (p, [])
  | p, m :: ms =>
    match p.Register m with
    | .error e => .error e
    | .ok (q, id) =>
      match registerAll q ms with
      | .error e => .error e
      | .ok (r, ids) => .ok (r, id :: ids)

/-- The pointer-typed message `&T_k{}` of the `k`-th of a family of distinct struct types. -/
def sampleMsg (k : Nat) : Msg := .obj (.ptr (.named k)) []

/-- A payload serializer that writes the content as the payload and reads it back. -/
def plainCodec : Codec :=
  { Marshal := fun _ c => (c, none), UnmarshalMerge := fun buf _ _ => (buf, none) }

/-- A payload serializer whose deserializer rejects every payload. -/
def rejectCodec : Codec :=
  { Marshal := fun _ c => (c, none), UnmarshalMerge := fun _ _ c => (c, some 1) }

/-- The payload deserializer inverts the payload serializer on values of type `t`. -/
def CodecInverts (pb : Codec) (t : RType) : Prop :=
  ∀ c : Content, (pb.Marshal t c).2 = none ∧
    pb.UnmarshalMerge (pb.Marshal t c).1 t zeroContent = (c, none)

/-- The first `n` messages of the family `sampleMsg`. -/
def sampleMsgs (n : Nat) : List Msg := (List.range n).map sampleMsg

/-- Every identifier holding a descriptor is below the number of descriptors. -/
def KeysBelowLen (p : Processor) : Prop := ∀ e ∈ p.msgInfo, e.1 < p.msgInfo.len

/-- The descriptor `Register` and `RegisterWithId` store for type `t`. -/
def freshInfo (t : RType) : MsgInfo :=
  { msgType := some t, msgRouter := none, msgHandler := none, msgRawHandler := none }

/-- The registry after `Register(&T0{})` and `Register(&T1{})` on a new processor. -/
def registryAB : Processor :=
  { littleEndian := false,
    msgInfo := [(1, freshInfo (.ptr (.named 1))), (0, freshInfo (.ptr (.named 0)))],
    msgID := [(some (.ptr (.named 1)), 1), (some (.ptr (.named 0)), 0)] }

/-- The registry after `Register(&T0{})` on a new processor. -/
def registryA : Processor :=
  { littleEndian := false,
    msgInfo := [(0, freshInfo (.ptr (.named 0)))],
    msgID := [(some (.ptr (.named 0)), 0)] }

/-- The registry `registryAB` after `SetHandler(&T0{}, h11)`. -/
def registryH1 : Processor :=
  { littleEndian := false,
    msgInfo := [(1, freshInfo (.ptr (.named 1))),
                (0, { msgType := some (.ptr (.named 0)), msgRouter := none,
                      msgHandler := some 11, msgRawHandler := none })],
    msgID := [(some (.ptr (.named 1)), 1), (some (.ptr (.named 0)), 0)] }

/-- The registry `registryH1` after `SetRouter(&T0{}, r12)`. -/
def registryH2 : Processor :=
  { littleEndian := false,
    msgInfo := [(1, freshInfo (.ptr (.named 1))),
                (0, { msgType := some (.ptr (.named 0)), msgRouter := some 12,
                      msgHandler := some 11, msgRawHandler := none })],
    msgID := [(some (.ptr (.named 1)), 1), (some (.ptr (.named 0)), 0)] }

/-- The registry `registryAB` after `SetHandler(&T0{}, h11)`, `SetRouter(&T0{}, r12)` and
`SetRawHandler(1, h13)`. -/
def registryHandlers : Processor :=
  { littleEndian := false,
    msgInfo := [(1, { msgType := some (.ptr (.named 1)), msgRouter := none, msgHandler := none,
                      msgRawHandler := some 13 }),
                (0, { msgType := some (.ptr (.named 0)), msgRouter := some 12,
                      msgHandler := some 11, msgRawHandler := none })],
    msgID := [(some (.ptr (.named 1)), 1), (some (.ptr (.named 0)), 0)] }

/-- The registry after `RegisterWithId(&T0{}, 7)` on a new processor. -/
def registryOne : Processor :=
  { littleEndian := false,
    msgInfo := [(7, freshInfo (.ptr (.named 0)))],
    msgID := [(some (.ptr (.named 0)), 7)] }

/-- The registry `registryOne` after `RegisterWithId(&T1{}, 7)`: both types map to 7. -/
def registryCollide : Processor :=
  { littleEndian := false,
    msgInfo := [(7, freshInfo (.ptr (.named 1)))],
    msgID := [(some (.ptr (.named 1)), 7), (some (.ptr (.named 0)), 7)] }

/-- The registry `registryHandlers` after `SetRawHandler(0, h14)`: identifier 0 has a
handler, a router and a raw handler. -/
def registryRawBoth : Processor :=
  { littleEndian := false,
    msgInfo := [(1, { msgType := some (.ptr (.named 1)), msgRouter := none, msgHandler := none,
                      msgRawHandler := some 13 }),
                (0, { msgType := some (.ptr (.named 0)), msgRouter := some 12,
                      msgHandler := some 11, msgRawHandler := some 14 })],
    msgID := [(some (.ptr (.named 1)), 1), (some (.ptr (.named 0)), 0)] }

/-- The registry after `RegisterWithId(&T0{}, 1)` on a new processor. -/
def registryWith1 : Processor :=
  { littleEndian := false,
    msgInfo := [(1, freshInfo (.ptr (.named 0)))],
    msgID := [(some (.ptr (.named 0)), 1)] }

/-- The registry `registryWith1` after `Register(&T1{})`: both types map to 1. -/
def registryShared : Processor :=
  { littleEndian := false,
    msgInfo := [(1, freshInfo (.ptr (.named 1)))],
    msgID := [(some (.ptr (.named 1)), 1), (some (.ptr (.named 0)), 1)] }

/-- Registries reachable from `NewProcessor` by calls that return and in which every
`Register` and `RegisterWithId` call returns an identifier that held no descriptor before
the call. -/
inductive ReachableFresh : Processor → Prop where
  | new : ReachableFresh NewProcessor
  | setByteOrder {p : Processor} (b : Bool) :
      ReachableFresh p → ReachableFresh (p.SetByteOrder b)
  | register {p q : Processor} {msg : Msg} {id : Nat} :
      ReachableFresh p → p.msgInfo.get? id = none → p.Register msg = .ok (q, id) →
      ReachableFresh q
  | registerWithId {p q : Processor} {msg : Msg} {id r : Nat} :
      ReachableFresh p → id < 65536 → p.msgInfo.get? id = none →
      p.RegisterWithId msg id = .ok (q, r) → ReachableFresh q
  | setRouter {p q : Processor} {msg : Msg} {h : Router} :
      ReachableFresh p → p.SetRouter msg h = .ok q → ReachableFresh q
  | setHandler {p q : Processor} {msg : Msg} {h : MsgHandler} :
      ReachableFresh p → p.SetHandler msg h = .ok q → ReachableFresh q
  | setRawHandler {p q : Processor} {id : Nat} {h : MsgHandler} :
      ReachableFresh p → id < 65536 → p.SetRawHandler id h = .ok q → ReachableFresh q

/-! ## The processor as state

The functions of the processor once more, statement by statement, as computations on the
processor they are called on: each read of a field or of a map entry and each assignment is
one step, and a computation returns its result (or the abort that ended it) together with
the processor it leaves. A handler or router call is listed in the result, as in `Route`;
what the callee does is not part of the function. -/

/-- A sequence of Go statements run on a processor: the value returned or the abort, and
the processor left behind. -/
def Stmt (α : Type) : Type := Processor → Except Abort α × Processor

namespace Stmt

/-- Statement `return a`. -/
def ret {α : Type} (a : α) : Stmt α := fun p => (.ok a, p)

/-- A panic or `log.Fatal`: nothing after it runs. -/
def abort {α : Type} (e : Abort) : Stmt α := fun p => (.error e, p)

/-- Sequencing: `s`, then `f` on the value of `s`, run on the processor `s` left. -/
def bind {α β : Type} (s : Stmt α) (f : α → Stmt β) : Stmt β := fun p =>
  match s p with
  | (.ok a, q) => f a q
  | (.error e, q) => (.error e, q)

/-- Read of the field `p.littleEndian`. -/
def loadLittleEndian : Stmt Bool := fun p => (.ok p.littleEndian, p)

/-- Map read `p.msgInfo[id]`; `none` is the nil pointer of an absent key. A Go map read
adds no entry. -/
def indexMsgInfo (id : Nat) : Stmt (Option MsgInfo) := fun p => (.ok (p.msgInfo.get? id), p)

/-- Map read `id, ok := p.msgID[msgType]`; `none` is `ok == false`. -/
def indexMsgID (msgType : ReflectType) : Stmt (Option Nat) :=
  fun p => (.ok (p.msgID.get? msgType), p)

/-- Read of `len(p.msgInfo)`. -/
def lenMsgInfo : Stmt Nat := fun p => (.ok p.msgInfo.len, p)

/-- The entries one `for id, i := range p.msgInfo` loop visits, in the order `order`. -/
def rangeMsgInfo (order : MapOrder) : Stmt (GoMap Nat MsgInfo) :=
  fun p => (.ok (order.visit p.msgInfo), p)

/-- Assignment `p.littleEndian = b`. -/
def storeLittleEndian (b : Bool) : Stmt Unit :=
  fun p => (.ok (), { p with littleEndian := b })

/-- Assignment `p.msgInfo[id].msgRawHandler = h` through the pointer stored under `id`. -/
def storeMsgRawHandler (id : Nat) (h : MsgHandler) : Stmt Unit :=
  fun p => (.ok (),
    { p with msgInfo := p.msgInfo.modify id (fun i => { i with msgRawHandler := h }) })

end Stmt

namespace Stateful

/-- Go `Processor.SetByteOrder`, statement by statement. -/
def SetByteOrder (littleEndian : Bool) : Stmt Unit :=
  Stmt.storeLittleEndian littleEndian

/-- Go `Processor.Route`, statement by statement. -/
def Route (msg : Msg) (userData : UserData) : Stmt (Option GoError × List Call) :=
  match msg with
  | .raw msgRaw =>
    Stmt.bind (Stmt.indexMsgInfo msgRaw.msgID) fun i =>
    match i with
    | none => Stmt.abort .panicNilDeref
    | some i =>
      match i.msgRawHandler with
      | some h =>
        Stmt.ret (none, [Call.handler h
          [.id msgRaw.msgID, .bytes msgRaw.msgRawData, .userData userData]])
      | none => Stmt.ret (none, [])
  | msg =>
    let msgType := TypeOf msg
    Stmt.bind (Stmt.indexMsgID msgType) fun r =>
    match r with
    | none => Stmt.ret (some (.routeNotRegistered msgType), [])
    | some id =>
      Stmt.bind (Stmt.indexMsgInfo id) fun i =>
      match i with
      | none => Stmt.abort .panicNilDeref
      | some i => Stmt.ret (none, Processor.typedCalls i msgType msg userData)

/-- Go `Processor.Unmarshal`, statement by statement. -/
def Unmarshal (pb : Codec) (data : List Nat) : Stmt (Option Msg × Option GoError) :=
  if data.length < 2 then Stmt.ret (none, some .dataTooShort)
  else
    Stmt.bind Stmt.loadLittleEndian fun littleEndian =>
    match (if littleEndian then LittleEndianUint16 data else BigEndianUint16 data) with
    | none => Stmt.abort .panicIndex
    | some id =>
      Stmt.bind (Stmt.indexMsgInfo id) fun i =>
      match i with
      | none => Stmt.ret (none, some .dataTooShort)
      | some i =>
        if i.msgRawHandler.isSome then
          Stmt.ret (some (.raw { msgID := id, msgRawData := data.drop 2 }), none)
        else
          match i.msgType with
          | some (.ptr e) =>
            let r := pb.UnmarshalMerge (data.drop 2) (.ptr e) zeroContent
            Stmt.ret (some (.obj (.ptr e) r.1), r.2.map GoError.proto)
          | _ => Stmt.abort .panicElem

/-- Go `Processor.Marshal`, statement by statement. -/
def Marshal (pb : Codec) (msg : Msg) : Stmt (Option (List (List Nat)) × Option GoError) :=
  let msgType := TypeOf msg
  Stmt.bind (Stmt.indexMsgID msgType) fun r =>
  match r with
  | none => Stmt.ret (none, some (.marshalNotRegistered msgType))
  | some _id =>
    Stmt.bind Stmt.loadLittleEndian fun littleEndian =>
    let id := if littleEndian then LittleEndianPutUint16 _id else BigEndianPutUint16 _id
    match msg with
    | .obj t c =>
      let r := pb.Marshal t c
      Stmt.ret (some [id, r.1], r.2.map GoError.proto)
    | _ => Stmt.abort .panicTypeAssert

/-- Go `Processor.Range`, statement by statement: the calls `f(id, type)` made. -/
def Range (order : MapOrder) : Stmt (List (Nat × ReflectType)) :=
  Stmt.bind (Stmt.rangeMsgInfo order) fun entries =>
  Stmt.ret (entries.map (fun e => (uint16 e.1, e.2.msgType)))

/-- Go `Processor.GetId`, statement by statement. -/
def GetId (msgType : ReflectType) : Stmt Nat :=
  Stmt.bind (Stmt.indexMsgID msgType) fun r =>
  Stmt.ret (r.getD 0)

/-- Go `Processor.GetMsgInfoMsgType`, statement by statement. -/
def GetMsgInfoMsgType (id : Nat) : Stmt ReflectType :=
  Stmt.bind (Stmt.indexMsgInfo id) fun i =>
  match i with
  | none => Stmt.abort .panicNilDeref
  | some i => Stmt.ret i.msgType

/-- Go `Processor.SetRawHandler`, statement by statement. -/
def SetRawHandler (id : Nat) (msgRawHandler : MsgHandler) : Stmt Unit :=
  Stmt.bind Stmt.lenMsgInfo fun n =>
  if id ≥ uint16 n then Stmt.abort .fatalNotRegistered
  else
    Stmt.bind (Stmt.indexMsgInfo id) fun i =>
    match i with
    | none => Stmt.abort .panicNilDeref
    | some _ => Stmt.storeMsgRawHandler id msgRawHandler

end Stateful

end protobuf

/-! # Gateway and agent (`gate/gate.go`)

The collaborators of package `gate` that are declared outside this repository (the
`network.Processor` and `network.Conn` interfaces, the two servers, `chanrpc.Server`) are
parameters: a processor is a record of its three methods, a connection and a `chanrpc`
server are named by a number, and a function returns the list of the calls it makes on
them, in order. Log output is not modelled. -/

namespace network

open protobuf

/-- Go interface `network.Processor`; a method that panics returns `.error`. -/
structure Processor where
  Route : Msg → UserData → Except Abort (Option GoError)
  Unmarshal : List Nat → Except Abort (Option Msg × Option GoError)
  Marshal : Msg → Except Abort (Option (List (List Nat)) × Option GoError)

/-- The fields of `network.WSServer` that `Gate.Run` assigns; the `NewAgent` field is the
closure `gate.Gate.NewAgent`. -/
structure WSServer where
  Addr : String
  MaxConnNum : Int
  PendingWriteNum : Int
  MaxMsgLen : Nat
  HTTPTimeout : Int
  CertFile : String
  KeyFile : String
  deriving DecidableEq, Repr

/-- The fields of `network.TCPServer` that `Gate.Run` assigns; the `NewAgent` field is the
closure `gate.Gate.NewAgent`. -/
structure TCPServer where
  Addr : String
  MaxConnNum : Int
  PendingWriteNum : Int
  LenMsgLen : Int
  MaxMsgLen : Nat
  LittleEndian : Bool
  deriving DecidableEq, Repr

end network

namespace gate

open protobuf

/-- Go struct `Gate`; `none` in `Processor` and `AgentChanRPC` is nil. -/
structure Gate where
  MaxConnNum : Int
  PendingWriteNum : Int
  MaxMsgLen : Nat
  Processor : Option network.Processor
  AgentChanRPC : Option Nat
  WSAddr : String
  HTTPTimeout : Int
  CertFile : String
  KeyFile : String
  TCPAddr : String
  LenMsgLen : Int
  LittleEndian : Bool

/-- Go struct `agent`: the connection handle, the gate pointer and the user data; `none` is
nil. -/
structure agent where
  conn : Option Nat
  gate : Option Gate
  userData : Option Nat

/-- Calls made on the collaborators of an agent. `ReadMsg` and `WriteMsg` carry what the
connection returned (`none` in `ReadMsg` is a read error, `none` in `WriteMsg` is a nil
error). -/
inductive Event where
  | ReadMsg (conn : Nat) (data : Option (List Nat))
  | Unmarshal (data : List Nat)
  | Route (msg : Msg) (userData : UserData)
  | Marshal (msg : Msg)
  | WriteMsg (conn : Nat) (args : List (List Nat)) (err : Option GoError)
  | Go (server : Nat) (id : String) (arg : UserData)
  | Call0 (server : Nat) (id : String) (arg : UserData)
  deriving DecidableEq, Repr

/-- Calls `Gate.Run` makes on the two servers, and the receive on `closeSig`. -/
inductive RunEvent where
  | wsStart (s : network.WSServer)
  | tcpStart (s : network.TCPServer)
  | closeSig
  | wsClose
  | tcpClose
  deriving DecidableEq, Repr

/-- Go `GetAgent`. -/
def GetAgent (conn : Option Nat) (gate : Option Gate) : agent :=
  { conn := conn, gate := gate, userData := none }

/-- Go `GetTestNewAgent`. -/
def GetTestNewAgent : agent :=
  { conn := none, gate := none, userData := none }

/-- The `NewAgent` closure `Gate.Run` gives to both servers: the agent made for connection
`conn`, allocated at address `self`, and the calls made. -/
def Gate.NewAgent (gate : Gate) (conn : Nat) (self : UserData) : agent × List Event :=
  let a : agent := { conn := some conn, gate := some gate, userData := none }
  match gate.AgentChanRPC with
  | some s => (a, [.Go s "NewAgent" self])
  | none => (a, [])

/-- Go `Gate.Run`: the calls made, in order. `closeSig` tells whether a value arrives on the
channel; when none does, `Run` stays blocked on the receive. -/
def Gate.Run (gate : Gate) (closeSig : Bool) : List RunEvent :=
  let wsServer : Option network.WSServer :=
    if gate.WSAddr ≠ "" then
      some { Addr := gate.WSAddr, MaxConnNum := gate.MaxConnNum,
             PendingWriteNum := gate.PendingWriteNum, MaxMsgLen := gate.MaxMsgLen,
             HTTPTimeout := gate.HTTPTimeout, CertFile := gate.CertFile,
             KeyFile := gate.KeyFile }
    else none
  let tcpServer : Option network.TCPServer :=
    if gate.TCPAddr ≠ "" then
      some { Addr := gate.TCPAddr, MaxConnNum := gate.MaxConnNum,
             PendingWriteNum := gate.PendingWriteNum, LenMsgLen := gate.LenMsgLen,
             MaxMsgLen := gate.MaxMsgLen, LittleEndian := gate.LittleEndian }
    else none
  (match wsServer with
    | some s => [RunEvent.wsStart s]
    | none => []) ++
  (match tcpServer with
    | some s => [RunEvent.tcpStart s]
    | none => []) ++
  (if closeSig then
    [RunEvent.closeSig] ++
    (match wsServer with
      | some _ => [RunEvent.wsClose]
      | none => []) ++
    (match tcpServer with
      | some _ => [RunEvent.tcpClose]
      | none => [])
  else [])

/-- Go `Gate.OnDestroy`. -/
def Gate.OnDestroy (_gate : Gate) : List RunEvent := []

/-- Go `agent.Run` for an agent allocated at address `self`, on a connection whose
`ReadMsg` returns the frames of the list, one per call, and then an error: the calls made,
in order, and the panic that ended the loop, if any. -/
def agent.Run (a : agent) (self : UserData) : List (List Nat) → List Event × Option Abort
  | [] =>
    match a.conn with
    | none => ([], some .panicNilDeref)
    | some c => ([.ReadMsg c none], none)
  | data :: frames =>
    match a.conn with
    | none => ([], some .panicNilDeref)
    | some c =>
      match a.gate with
      | none => ([.ReadMsg c (some data)], some .panicNilDeref)
      | some g =>
        match g.Processor with
        | none =>
          let r := agent.Run a self frames
          (.ReadMsg c (some data) :: r.1, r.2)
        | some P =>
          match P.Unmarshal data with
          | .error e => ([.ReadMsg c (some data), .Unmarshal data], some e)
          | .ok (_, some _) => ([.ReadMsg c (some data), .Unmarshal data], none)
          | .ok (msg, none) =>
            match P.Route (msg.getD .nil) self with
            | .error e =>
              ([.ReadMsg c (some data), .Unmarshal data, .Route (msg.getD .nil) self], some e)
            | .ok (some _) =>
              ([.ReadMsg c (some data), .Unmarshal data, .Route (msg.getD .nil) self], none)
            | .ok none =>
              let r := agent.Run a self frames
              (.ReadMsg c (some data) :: .Unmarshal data :: .Route (msg.getD .nil) self :: r.1,
               r.2)

/-- Go `agent.OnClose` for an agent allocated at address `self`. -/
def agent.OnClose (a : agent) (self : UserData) : List Event × Option Abort :=
  match a.gate with
  | none => ([], some .panicNilDeref)
  | some g =>
    match g.AgentChanRPC with
    | some s => ([.Call0 s "CloseAgent" self], none)
    | none => ([], none)

/-- Go `agent.WriteMsg`, on a connection whose `WriteMsg` returns `connWriteMsg args`: the
agent after the call, the calls made, in order, and the panic that ended the call, if
any. -/
def agent.WriteMsg (a : agent) (msg : Msg) (connWriteMsg : List (List Nat) → Option GoError) :
    agent × List Event × Option Abort :=
  match a.gate with
  | none => (a, [], some .panicNilDeref)
  | some g =>
    match g.Processor with
    | none => (a, [], none)
    | some P =>
      match P.Marshal msg with
      | .error e => (a, [.Marshal msg], some e)
      | .ok (_, some _) => (a, [.Marshal msg], none)
      | .ok (data, none) =>
        match a.conn with
        | none => (a, [.Marshal msg], some .panicNilDeref)
        | some c =>
          (a, [.Marshal msg, .WriteMsg c (data.getD []) (connWriteMsg (data.getD []))], none)

/-- Go `agent.UserData`. -/
def agent.UserData (a : agent) : Option Nat := a.userData

/-- Go `agent.SetUserData`. -/
def agent.SetUserData (a : agent) (data : Option Nat) : agent := { a with userData := data }

/-- The calls of the read loop for the frames of a list that are all decoded and routed. -/
def routedCalls (P : network.Processor) (c : Nat) (self : UserData) :
    List (List Nat) → List Event
  | [] => []
  | data :: frames =>
    let msg : Msg :=
      match P.Unmarshal data with
      | .ok (m, _) => m.getD .nil
      | .error _ => .nil
    .ReadMsg c (some data) :: .Unmarshal data :: .Route msg self :: routedCalls P c self frames

/-- A `network.Processor` backed by the processor of package `protobuf`. -/
def ofProtobuf (pb : Codec) (p : protobuf.Processor) : network.Processor :=
  { Route := fun msg userData =>
      match p.Route msg userData with
      | .ok r => .ok r.1
      | .error e => .error e,
    Unmarshal := fun data => p.Unmarshal pb data,
    Marshal := fun msg => p.Marshal pb msg }

/-- A gate with both listeners configured and `registryAB` as processor. -/
def sampleGate : Gate :=
  { MaxConnNum := 100, PendingWriteNum := 10, MaxMsgLen := 4096,
    Processor := some (ofProtobuf plainCodec registryAB), AgentChanRPC := some 1,
    WSAddr := ":8080", HTTPTimeout := 5, CertFile := "", KeyFile := "",
    TCPAddr := ":9090", LenMsgLen := 2, LittleEndian := false }

/-- An agent of `sampleGate` on connection 3. -/
def sampleAgent : agent :=
  { conn := some 3, gate := some sampleGate, userData := none }

end gate

namespace protobuf

/-! ## Lemmas on Go maps -/

namespace GoMap

variable {κ ν : Type} [DecidableEq κ]

theorem get?_map_key (m : GoMap κ ν) (k : κ) (g : ν → ν) (k0 : κ) :
    get? (m.map (fun e => if e.1 = k then (k, g e.2) else e)) k0
      = if k0 = k then (get? m k).map g else get? m k0 := by
  induction m with
  | nil => simp [get?]
  | cons e rest ih =>
    obtain ⟨a, b⟩ := e
    show get? ((if a = k then (k, g b) else (a, b)) :: _) k0 = _
    by_cases h1 : a = k
    · rw [if_pos h1]
      subst h1
      by_cases h2 : k0 = a
      · subst h2; simp [get?]
      · have h3 : ¬ a = k0 := fun h => h2 h.symm
        simp only [get?, if_neg h2, if_neg h3]
        rw [ih, if_neg h2]
    · rw [if_neg h1]
      by_cases h2 : k0 = k
      · subst h2
        simp only [get?, if_neg h1, if_true]
        rw [ih]; simp
      · by_cases h3 : a = k0
        · subst h3; simp [get?, h1]
        · simp only [get?, if_neg h1, if_neg h2, if_neg h3]
          rw [ih, if_neg h2]

theorem get?_set (m : GoMap κ ν) (k : κ) (v : ν) (k0 : κ) :
    get? (set m k v) k0 = if k0 = k then some v else get? m k0 := by
  unfold set
  cases hk : get? m k with
  | none =>
    by_cases h : k0 = k
    · subst h; simp [get?]
    · have h2 : ¬ k = k0 := fun e => h e.symm
      simp [get?, h, h2]
  | some w =>
    have hm := get?_map_key m k (fun _ => v) k0
    simp only [Option.isSome_some, if_true]
    rw [hm, hk]
    simp

theorem len_set (m : GoMap κ ν) (k : κ) (v : ν) :
    len (set m k v) = if (get? m k).isSome then len m else len m + 1 := by
  unfold set len
  cases hk : get? m k <;> simp

theorem get?_modify (m : GoMap κ ν) (k : κ) (f : ν → ν) (k0 : κ) :
    get? (modify m k f) k0 = if k0 = k then (get? m k).map f else get? m k0 := by
  have h : modify m k f = m.map (fun e => if e.1 = k then (k, f e.2) else e) := by
    unfold modify
    apply List.map_congr_left
    intro e _
    by_cases he : e.1 = k
    · simp [he]
    · simp [he]
  rw [h, get?_map_key]

theorem len_modify (m : GoMap κ ν) (k : κ) (f : ν → ν) : len (modify m k f) = len m := by
  simp [modify, len]

theorem get?_eq_none_of_keys_lt (m : GoMap Nat ν) (n : Nat)
    (h : ∀ e ∈ m, e.1 < n) (k : Nat) (hk : n ≤ k) : get? m k = none := by
  induction m with
  | nil => rfl
  | cons e rest ih =>
    obtain ⟨a, b⟩ := e
    have ha : a < n := h (a, b) (List.mem_cons_self _ _)
    have hne : ¬ a = k := by omega
    simp only [get?, hne, if_false]
    exact ih (fun e he => h e (List.mem_cons_of_mem _ he))

theorem mem_set (m : GoMap κ ν) (k : κ) (v : ν) (e : κ × ν) (he : e ∈ set m k v) :
    e = (k, v) ∨ e ∈ m := by
  unfold set at he
  split at he
  · rcases List.mem_map.1 he with ⟨x, hx, hxe⟩
    by_cases h : x.1 = k
    · simp [h] at hxe; exact Or.inl hxe.symm
    · simp [h] at hxe; subst hxe; exact Or.inr hx
  · rcases List.mem_cons.1 he with h | h
    · exact Or.inl h
    · exact Or.inr h

end GoMap

/-! ## Single registration steps -/

theorem Register_ptr (p : Processor) (e : RType) (c : Content) :
    p.Register (.obj (.ptr e) c) =
      if (p.msgID.get? (some (.ptr e))).isSome then .error .fatalAlreadyRegistered
      else if p.msgInfo.len ≥ 65535 then .error .fatalTooMany
      else .ok ({ p with msgInfo := p.msgInfo.set (p.msgInfo.len % 65536) (freshInfo (.ptr e)),
                         msgID := p.msgID.set (some (.ptr e)) (p.msgInfo.len % 65536) },
                p.msgInfo.len % 65536) := by
  simp [Processor.Register, TypeOf, RType.isPtr, MaxUint16, uint16, freshInfo]

theorem RegisterWithId_ptr (p : Processor) (e : RType) (c : Content) (id : Nat) :
    p.RegisterWithId (.obj (.ptr e) c) id =
      if (p.msgID.get? (some (.ptr e))).isSome then .error .fatalAlreadyRegistered
      else if p.msgInfo.len ≥ 65535 then .error .fatalTooMany
      else .ok ({ p with msgInfo := p.msgInfo.set id (freshInfo (.ptr e)),
                         msgID := p.msgID.set (some (.ptr e)) id }, id) := by
  simp [Processor.RegisterWithId, TypeOf, RType.isPtr, MaxUint16, freshInfo]

theorem typeOf_ptr (msg : Msg) (e : RType) (h : TypeOf msg = some (.ptr e)) :
    ∃ c, msg = .obj (.ptr e) c := by
  cases msg with
  | nil => simp [TypeOf] at h
  | raw r => simp [TypeOf] at h
  | obj t c => simp [TypeOf] at h; subst h; exact ⟨c, rfl⟩

theorem Register_abort_of_not_ptr (p : Processor) (msg : Msg)
    (h : ∀ e, TypeOf msg ≠ some (.ptr e)) : p.Register msg = .error .fatalPointerRequired := by
  unfold Processor.Register
  cases ht : TypeOf msg with
  | none => rfl
  | some t =>
    cases t with
    | msgRaw => rfl
    | named n => rfl
    | ptr e => exact absurd ht (h e)

theorem RegisterWithId_abort_of_not_ptr (p : Processor) (msg : Msg) (id : Nat)
    (h : ∀ e, TypeOf msg ≠ some (.ptr e)) :
    p.RegisterWithId msg id = .error .fatalPointerRequired := by
  unfold Processor.RegisterWithId
  cases ht : TypeOf msg with
  | none => rfl
  | some t =>
    cases t with
    | msgRaw => rfl
    | named n => rfl
    | ptr e => exact absurd ht (h e)

theorem Register_ok (p q : Processor) (msg : Msg) (id : Nat)
    (h : p.Register msg = .ok (q, id)) :
    ∃ e, TypeOf msg = some (.ptr e) ∧ p.msgID.get? (some (.ptr e)) = none ∧
      p.msgInfo.len < 65535 ∧ id = p.msgInfo.len ∧
      q = { p with msgInfo := p.msgInfo.set id (freshInfo (.ptr e)),
                   msgID := p.msgID.set (some (.ptr e)) id } := by
  by_cases hp : ∃ e, TypeOf msg = some (.ptr e)
  · obtain ⟨e, he⟩ := hp
    obtain ⟨c, rfl⟩ := typeOf_ptr msg e he
    rw [Register_ptr] at h
    refine ⟨e, he, ?_⟩
    cases hg : p.msgID.get? (some (.ptr e)) with
    | some n => simp [hg] at h
    | none =>
      simp only [hg, Option.isSome_none] at h
      by_cases hl : p.msgInfo.len ≥ 65535
      · simp [hl] at h
      · have hl2 : p.msgInfo.len < 65535 := by omega
        have hm : p.msgInfo.len % 65536 = p.msgInfo.len := Nat.mod_eq_of_lt (by omega)
        simp only [hl, hm] at h
        simp at h
        obtain ⟨h1, h2⟩ := h
        subst h2
        exact ⟨rfl, hl2, rfl, h1.symm⟩
  · have := Register_abort_of_not_ptr p msg (fun e he => hp ⟨e, he⟩)
    rw [this] at h
    cases h

theorem RegisterWithId_ok (p q : Processor) (msg : Msg) (id r : Nat)
    (h : p.RegisterWithId msg id = .ok (q, r)) :
    ∃ e, TypeOf msg = some (.ptr e) ∧ p.msgID.get? (some (.ptr e)) = none ∧
      p.msgInfo.len < 65535 ∧ r = id ∧
      q = { p with msgInfo := p.msgInfo.set id (freshInfo (.ptr e)),
                   msgID := p.msgID.set (some (.ptr e)) id } := by
  by_cases hp : ∃ e, TypeOf msg = some (.ptr e)
  · obtain ⟨e, he⟩ := hp
    obtain ⟨c, rfl⟩ := typeOf_ptr msg e he
    rw [RegisterWithId_ptr] at h
    refine ⟨e, he, ?_⟩
    cases hg : p.msgID.get? (some (.ptr e)) with
    | some n => simp [hg] at h
    | none =>
      simp only [hg, Option.isSome_none] at h
      by_cases hl : p.msgInfo.len ≥ 65535
      · simp [hl] at h
      · have hl2 : p.msgInfo.len < 65535 := by omega
        simp only [hl] at h
        simp at h
        obtain ⟨h1, h2⟩ := h
        exact ⟨rfl, hl2, h2.symm, h1.symm⟩
  · have := RegisterWithId_abort_of_not_ptr p msg id (fun e he => hp ⟨e, he⟩)
    rw [this] at h
    cases h

theorem SetRouter_ok (p q : Processor) (msg : Msg) (r : Router)
    (h : p.SetRouter msg r = .ok q) :
    ∃ id, p.msgID.get? (TypeOf msg) = some id ∧
      q = { p with msgInfo := p.msgInfo.modify id (fun i => { i with msgRouter := r }) } := by
  unfold Processor.SetRouter at h
  cases hg : p.msgID.get? (TypeOf msg) with
  | none => simp [hg] at h
  | some id =>
    cases hi : p.msgInfo.get? id with
    | none => simp [hg, hi] at h
    | some i =>
      simp [hg, hi] at h
      exact ⟨id, rfl, h.symm⟩

theorem SetHandler_ok (p q : Processor) (msg : Msg) (r : MsgHandler)
    (h : p.SetHandler msg r = .ok q) :
    ∃ id, p.msgID.get? (TypeOf msg) = some id ∧
      q = { p with msgInfo := p.msgInfo.modify id (fun i => { i with msgHandler := r }) } := by
  unfold Processor.SetHandler at h
  cases hg : p.msgID.get? (TypeOf msg) with
  | none => simp [hg] at h
  | some id =>
    cases hi : p.msgInfo.get? id with
    | none => simp [hg, hi] at h
    | some i =>
      simp [hg, hi] at h
      exact ⟨id, rfl, h.symm⟩

theorem SetRawHandler_ok (p q : Processor) (id : Nat) (r : MsgHandler)
    (h : p.SetRawHandler id r = .ok q) :
    q = { p with msgInfo := p.msgInfo.modify id (fun i => { i with msgRawHandler := r }) } := by
  unfold Processor.SetRawHandler at h
  by_cases hl : id ≥ uint16 p.msgInfo.len
  · simp [hl] at h
  · cases hi : p.msgInfo.get? id with
    | none => simp [hl, hi] at h
    | some i =>
      simp [hl, hi] at h
      exact h.symm

/-! ## Invariants of reachable registries -/

/-- Descriptors record pointer types; registered types are pointer types whose identifier
fits 16 bits and holds a descriptor. -/
theorem inv_new :
    (∀ id i, NewProcessor.msgInfo.get? id = some i → ∃ e, i.msgType = some (.ptr e)) ∧
    (∀ t n, NewProcessor.msgID.get? t = some n →
      n < 65536 ∧ (∃ e, t = some (.ptr e)) ∧ (NewProcessor.msgInfo.get? n).isSome) := by
  constructor
  · intro id i h; simp [NewProcessor, GoMap.get?] at h
  · intro t n h; simp [NewProcessor, GoMap.get?] at h

theorem inv_insert (p : Processor) (e : RType) (id : Nat) (hid : id < 65536)
    (hp : (∀ id i, p.msgInfo.get? id = some i → ∃ e, i.msgType = some (.ptr e)) ∧
      (∀ t n, p.msgID.get? t = some n →
        n < 65536 ∧ (∃ e, t = some (.ptr e)) ∧ (p.msgInfo.get? n).isSome)) :
    (∀ k i, (p.msgInfo.set id (freshInfo (.ptr e))).get? k = some i →
        ∃ e, i.msgType = some (.ptr e)) ∧
    (∀ t n, (p.msgID.set (some (.ptr e)) id).get? t = some n →
      n < 65536 ∧ (∃ e, t = some (.ptr e)) ∧
        ((p.msgInfo.set id (freshInfo (.ptr e))).get? n).isSome) := by
  obtain ⟨h1, h2⟩ := hp
  constructor
  · intro k i hk
    rw [GoMap.get?_set] at hk
    by_cases hki : k = id
    · simp [hki] at hk
      subst hk
      exact ⟨e, rfl⟩
    · simp [hki] at hk
      exact h1 k i hk
  · intro t n ht
    rw [GoMap.get?_set] at ht
    rw [GoMap.get?_set]
    by_cases hte : t = some (.ptr e)
    · simp [hte] at ht
      subst ht
      exact ⟨hid, ⟨e, hte⟩, by simp⟩
    · simp [hte] at ht
      obtain ⟨a, b, c⟩ := h2 t n ht
      refine ⟨a, b, ?_⟩
      by_cases hn : n = id
      · simp [hn]
      · simp [hn, c]

theorem inv_modify (p q : Processor) (id : Nat) (f : MsgInfo → MsgInfo)
    (hf : ∀ i, (f i).msgType = i.msgType)
    (hqi : q.msgInfo = p.msgInfo.modify id f) (hqd : q.msgID = p.msgID)
    (hp : (∀ id i, p.msgInfo.get? id = some i → ∃ e, i.msgType = some (.ptr e)) ∧
      (∀ t n, p.msgID.get? t = some n →
        n < 65536 ∧ (∃ e, t = some (.ptr e)) ∧ (p.msgInfo.get? n).isSome)) :
    (∀ k i, q.msgInfo.get? k = some i → ∃ e, i.msgType = some (.ptr e)) ∧
    (∀ t n, q.msgID.get? t = some n →
      n < 65536 ∧ (∃ e, t = some (.ptr e)) ∧ (q.msgInfo.get? n).isSome) := by
  obtain ⟨h1, h2⟩ := hp
  rw [hqi, hqd]
  constructor
  · intro k i hk
    rw [GoMap.get?_modify] at hk
    by_cases hki : k = id
    · subst hki
      simp at hk
      obtain ⟨j, hj, hji⟩ := hk
      obtain ⟨e, he⟩ := h1 k j hj
      exact ⟨e, by rw [← hji, hf, he]⟩
    · simp [hki] at hk
      exact h1 k i hk
  · intro t n ht
    obtain ⟨a, b, c⟩ := h2 t n ht
    refine ⟨a, b, ?_⟩
    rw [GoMap.get?_modify]
    by_cases hn : n = id
    · subst hn
      simp
      exact c
    · simp [hn, c]

theorem reachable_inv (p : Processor) (h : Reachable p) :
    (∀ id i, p.msgInfo.get? id = some i → ∃ e, i.msgType = some (.ptr e)) ∧
    (∀ t n, p.msgID.get? t = some n →
      n < 65536 ∧ (∃ e, t = some (.ptr e)) ∧ (p.msgInfo.get? n).isSome) := by
  induction h with
  | new => exact inv_new
  | setByteOrder b _ ih => exact ih
  | register _ hr ih =>
    obtain ⟨e, _, _, hl, hid, hq⟩ := Register_ok _ _ _ _ hr
    subst hq
    exact inv_insert _ e _ (by omega) ih
  | registerWithId _ hid hr ih =>
    obtain ⟨e, _, _, _, _, hq⟩ := RegisterWithId_ok _ _ _ _ _ hr
    subst hq
    exact inv_insert _ e _ hid ih
  | @setRouter p q msg h _ hr ih =>
    obtain ⟨id, _, hq⟩ := SetRouter_ok _ _ _ _ hr
    subst hq
    exact inv_modify p _ id (fun i => { i with msgRouter := h }) (fun _ => rfl) rfl rfl ih
  | @setHandler p q msg h _ hr ih =>
    obtain ⟨id, _, hq⟩ := SetHandler_ok _ _ _ _ hr
    subst hq
    exact inv_modify p _ id (fun i => { i with msgHandler := h }) (fun _ => rfl) rfl rfl ih
  | @setRawHandler p q id h _ _ hr ih =>
    have hq := SetRawHandler_ok _ _ _ _ hr
    subst hq
    exact inv_modify p _ id (fun i => { i with msgRawHandler := h }) (fun _ => rfl) rfl rfl ih

/-! ## Concrete registries -/

theorem registryAB_steps :
    NewProcessor.Register (sampleMsg 0) = .ok (registryA, 0) ∧
    registryA.Register (sampleMsg 1) = .ok (registryAB, 1) := by
  constructor <;> rfl

theorem reachable_registryAB : Reachable registryAB :=
  Reachable.register (Reachable.register Reachable.new registryAB_steps.1) registryAB_steps.2

theorem registryHandlers_steps :
    registryAB.SetHandler (sampleMsg 0) (some 11) = .ok registryH1 ∧
    registryH1.SetRouter (sampleMsg 0) (some 12) = .ok registryH2 ∧
    registryH2.SetRawHandler 1 (some 13) = .ok registryHandlers := by
  refine ⟨?_, ?_, ?_⟩ <;> rfl

theorem reachable_registryHandlers : Reachable registryHandlers :=
  Reachable.setRawHandler
    (Reachable.setRouter
      (Reachable.setHandler reachable_registryAB registryHandlers_steps.1)
      registryHandlers_steps.2.1)
    (by decide) registryHandlers_steps.2.2

theorem registryCollide_steps :
    NewProcessor.RegisterWithId (sampleMsg 0) 7 = .ok (registryOne, 7) ∧
    registryOne.RegisterWithId (sampleMsg 1) 7 = .ok (registryCollide, 7) := by
  constructor <;> rfl

theorem reachable_registryOne : Reachable registryOne :=
  Reachable.registerWithId Reachable.new (by decide) registryCollide_steps.1

theorem reachable_registryCollide : Reachable registryCollide :=
  Reachable.registerWithId reachable_registryOne (by decide) registryCollide_steps.2

/-! ## Runs of `Register` calls -/

theorem keysBelowLen_new : KeysBelowLen NewProcessor := by
  intro e he
  simp [NewProcessor] at he

theorem Register_step (p q : Processor) (msg : Msg) (id : Nat) (hk : KeysBelowLen p)
    (h : p.Register msg = .ok (q, id)) :
    ∃ e, TypeOf msg = some (.ptr e) ∧ p.msgID.get? (some (.ptr e)) = none ∧
      p.msgInfo.len < 65535 ∧ id = p.msgInfo.len ∧
      q.msgInfo = (p.msgInfo.len, freshInfo (.ptr e)) :: p.msgInfo ∧
      q.msgID = p.msgID.set (some (.ptr e)) p.msgInfo.len ∧
      q.littleEndian = p.littleEndian := by
  obtain ⟨e, he, hn, hl, hid, hq⟩ := Register_ok p q msg id h
  subst hid
  have hnone : p.msgInfo.get? p.msgInfo.len = none :=
    GoMap.get?_eq_none_of_keys_lt p.msgInfo p.msgInfo.len hk _ (Nat.le_refl _)
  refine ⟨e, he, hn, hl, rfl, ?_, ?_, ?_⟩
  · rw [hq]
    show GoMap.set p.msgInfo p.msgInfo.len (freshInfo (.ptr e)) = _
    unfold GoMap.set
    rw [hnone]
    rfl
  · rw [hq]
  · rw [hq]

theorem keysBelowLen_cons (p q : Processor) (v : MsgInfo)
    (hk : KeysBelowLen p) (hq : q.msgInfo = (p.msgInfo.len, v) :: p.msgInfo) :
    KeysBelowLen q ∧ q.msgInfo.len = p.msgInfo.len + 1 := by
  have hlen : q.msgInfo.len = p.msgInfo.len + 1 := by
    rw [hq]; simp [GoMap.len]
  refine ⟨?_, hlen⟩
  intro e he
  rw [hlen]
  rw [hq] at he
  rcases List.mem_cons.1 he with h | h
  · subst h; exact Nat.lt_succ_self _
  · exact Nat.lt_succ_of_lt (hk e h)

theorem registerAll_cons (p : Processor) (m : Msg) (ms : List Msg) :
    registerAll p (m :: ms) =
      match p.Register m with
      | .error e => .error e
      | .ok (q, id) =>
        match registerAll q ms with
        | .error e => .error e
        | .ok (r, ids) => .ok (r, id :: ids) := rfl

theorem registerAll_cons_ok (p r : Processor) (m : Msg) (ms : List Msg) (ids : List Nat)
    (h : registerAll p (m :: ms) = .ok (r, ids)) :
    ∃ q id rest, p.Register m = .ok (q, id) ∧ registerAll q ms = .ok (r, rest) ∧
      ids = id :: rest := by
  unfold registerAll at h
  cases h1 : p.Register m with
  | error a => simp [h1] at h
  | ok qi =>
    obtain ⟨q, id⟩ := qi
    cases h2 : registerAll q ms with
    | error a => simp [h1, h2] at h
    | ok ri =>
      obtain ⟨r2, rest⟩ := ri
      simp [h1, h2] at h
      obtain ⟨hr, hids⟩ := h
      subst hr
      exact ⟨q, id, rest, rfl, h2, hids.symm⟩

theorem registerAll_inv (ms : List Msg) :
    ∀ (p q : Processor) (ids : List Nat), KeysBelowLen p →
      registerAll p ms = .ok (q, ids) →
      ids = List.range' p.msgInfo.len ms.length ∧ KeysBelowLen q ∧
      q.msgInfo.len = p.msgInfo.len + ms.length ∧
      (∀ k, k < p.msgInfo.len → q.msgInfo.get? k = p.msgInfo.get? k) ∧
      q.littleEndian = p.littleEndian ∧
      (∀ t, (q.msgID.get? t).isSome → (p.msgID.get? t).isSome ∨ t ∈ ms.map TypeOf) := by
  induction ms with
  | nil =>
    intro p q ids hk h
    simp [registerAll] at h
    obtain ⟨h1, h2⟩ := h
    subst h1; subst h2
    exact ⟨rfl, hk, rfl, fun _ _ => rfl, rfl, fun t ht => Or.inl ht⟩
  | cons m ms ih =>
    intro p r ids hk h
    obtain ⟨q, id, rest, h1, h2, hids⟩ := registerAll_cons_ok p r m ms ids h
    obtain ⟨e, he, _, _, hid, hqi, hqd, hqe⟩ := Register_step p q m id hk h1
    obtain ⟨hkq, hlen⟩ := keysBelowLen_cons p q _ hk hqi
    obtain ⟨ih1, ih2, ih3, ih4, ih5, ih6⟩ := ih q r rest hkq h2
    refine ⟨?_, ih2, ?_, ?_, ?_, ?_⟩
    · rw [hids, ih1, hid, hlen]
      simp [List.range']
    · rw [ih3, hlen]; simp; omega
    · intro k hklt
      rw [ih4 k (by omega), hqi]
      have hne : ¬ p.msgInfo.len = k := by omega
      simp [GoMap.get?, hne]
    · rw [ih5, hqe]
    · intro t ht
      rcases ih6 t ht with h3 | h3
      · rw [hqd, GoMap.get?_set] at h3
        by_cases hte : t = some (.ptr e)
        · right
          rw [hte, ← he]
          simp
        · simp [hte] at h3
          exact Or.inl h3
      · right
        simp only [List.map_cons, List.mem_cons]
        exact Or.inr h3

theorem registerAll_succeeds (ms : List Msg) :
    ∀ p : Processor, KeysBelowLen p →
      (∀ m ∈ ms, ∃ e, TypeOf m = some (.ptr e)) → (ms.map TypeOf).Nodup →
      (∀ m ∈ ms, p.msgID.get? (TypeOf m) = none) → p.msgInfo.len + ms.length ≤ 65535 →
      ∃ q ids, registerAll p ms = .ok (q, ids) := by
  induction ms with
  | nil => intro p _ _ _ _ _; exact ⟨p, [], rfl⟩
  | cons m ms ih =>
    intro p hk hptr hnd hfresh hlen
    obtain ⟨e, he⟩ := hptr m (List.mem_cons_self _ _)
    obtain ⟨c, rfl⟩ := typeOf_ptr m e he
    have hn : p.msgID.get? (some (.ptr e)) = none := hfresh _ (List.mem_cons_self _ _)
    have hl2 : ¬ p.msgInfo.len ≥ 65535 := by simp at hlen; omega
    have hR := Register_ptr p e c
    simp only [hn, Option.isSome_none, hl2] at hR
    simp only [Bool.false_eq_true, if_false] at hR
    obtain ⟨e2, he2, _, _, _, hqi, hqd, _⟩ := Register_step p _ _ _ hk hR
    obtain ⟨hkq, hlenq⟩ := keysBelowLen_cons p _ _ hk hqi
    simp only [List.map_cons, List.nodup_cons] at hnd
    have hrest := ih _ hkq (fun m hm => hptr m (List.mem_cons_of_mem _ hm)) hnd.2
      (by
        intro m2 hm2
        rw [hqd, GoMap.get?_set]
        have hne : TypeOf m2 ≠ some (.ptr e2) := by
          intro heq
          apply hnd.1
          rw [he2, ← heq]
          exact List.mem_map_of_mem _ hm2
        simp only [hne, if_false]
        exact hfresh m2 (List.mem_cons_of_mem _ hm2))
      (by rw [hlenq]; simp at hlen; omega)
    obtain ⟨r, ids, hr⟩ := hrest
    refine ⟨r, (p.msgInfo.len % 65536) :: ids, ?_⟩
    rw [registerAll_cons, hR]
    simp only [hr]

theorem registerAll_append (a b : List Msg) :
    ∀ p : Processor, registerAll p (a ++ b) =
      match registerAll p a with
      | .error e => .error e
      | .ok (q, ids) =>
        match registerAll q b with
        | .error e => .error e
        | .ok (r, ids2) => .ok (r, ids ++ ids2) := by
  induction a with
  | nil =>
    intro p
    simp only [List.nil_append, registerAll]
    cases registerAll p b with
    | error e => rfl
    | ok x => rfl
  | cons m a ih =>
    intro p
    rw [List.cons_append, registerAll_cons, registerAll_cons]
    cases p.Register m with
    | error e => rfl
    | ok qi =>
      obtain ⟨q, id⟩ := qi
      simp only
      rw [ih q]
      cases registerAll q a with
      | error e => rfl
      | ok x =>
        obtain ⟨q2, ids⟩ := x
        simp only
        cases registerAll q2 b with
        | error e => rfl
        | ok y => rfl

theorem sampleMsgs_succ (n : Nat) : sampleMsgs (n + 1) = sampleMsgs n ++ [sampleMsg n] := by
  simp [sampleMsgs, List.range_succ]

theorem sampleMsgs_length (n : Nat) : (sampleMsgs n).length = n := by
  simp [sampleMsgs]

theorem sampleMsgs_ptr (n : Nat) : ∀ m ∈ sampleMsgs n, ∃ e, TypeOf m = some (.ptr e) := by
  intro m hm
  simp only [sampleMsgs, List.mem_map] at hm
  obtain ⟨k, _, rfl⟩ := hm
  exact ⟨.named k, rfl⟩

theorem sampleMsgs_types (n : Nat) :
    (sampleMsgs n).map TypeOf = (List.range n).map (fun k => some (RType.ptr (.named k))) := by
  simp [sampleMsgs, sampleMsg, TypeOf, Function.comp_def]

theorem sampleMsgs_nodup (n : Nat) : ((sampleMsgs n).map TypeOf).Nodup := by
  rw [sampleMsgs_types]
  apply List.Nodup.map
  · intro a b hab
    simpa using hab
  · exact List.nodup_range n

/-! ## Reading a frame -/

theorem Unmarshal_frame (pb : Codec) (p : Processor) (b0 b1 : Nat) (rest : List Nat)
    (hb0 : b0 < 256) (hb1 : b1 < 256) :
    p.Unmarshal pb (b0 :: b1 :: rest) =
      match p.msgInfo.get? (if p.littleEndian then b0 + b1 * 256 else b1 + b0 * 256) with
      | none => .ok (none, some .dataTooShort)
      | some i =>
        if i.msgRawHandler.isSome then
          .ok (some (.raw { msgID := if p.littleEndian then b0 + b1 * 256 else b1 + b0 * 256,
                            msgRawData := rest }), none)
        else
          match i.msgType with
          | some (.ptr e) =>
            .ok (some (.obj (.ptr e) (pb.UnmarshalMerge rest (.ptr e) zeroContent).1),
                 (pb.UnmarshalMerge rest (.ptr e) zeroContent).2.map GoError.proto)
          | _ => .error .panicElem := by
  have m0 : b0 % 256 = b0 := Nat.mod_eq_of_lt hb0
  have m1 : b1 % 256 = b1 := Nat.mod_eq_of_lt hb1
  cases hle : p.littleEndian with
  | true => simp [Processor.Unmarshal, hle, LittleEndianUint16, m0, m1]
  | false => simp [Processor.Unmarshal, hle, BigEndianUint16, m0, m1]

theorem Unmarshal_short (pb : Codec) (p : Processor) (data : List Nat) (h : data.length < 2) :
    p.Unmarshal pb data = .ok (none, some .dataTooShort) := by
  simp [Processor.Unmarshal, h]

/-! ## Marshal -/

/-- C2. Marshal frame format: in a reachable registry, a message whose runtime type is
registered with identifier `n` is marshalled to exactly two segments, the 2-byte identifier
in the configured byte order (`[n / 256, n % 256]` big-endian, the default of `NewProcessor`;
`[n % 256, n / 256]` after `SetByteOrder(true)`) and the payload `proto.Marshal` returned;
a message whose runtime type is not registered gets an error and no segments. -/
theorem Marshal_frame_format (pb : Codec) (p : Processor) (hp : Reachable p) :
    NewProcessor.littleEndian = false ∧
    (p.SetByteOrder true).littleEndian = true ∧
    (∀ msg n, p.msgID.get? (TypeOf msg) = some n →
      ∃ t c, msg = .obj t c ∧
        p.Marshal pb msg =
          .ok (some [if p.littleEndian then [n % 256, n / 256] else [n / 256, n % 256],
                     (pb.Marshal t c).1],
               (pb.Marshal t c).2.map GoError.proto)) ∧
    (∀ msg, p.msgID.get? (TypeOf msg) = none →
      p.Marshal pb msg = .ok (none, some (.marshalNotRegistered (TypeOf msg)))) := by
  refine ⟨rfl, rfl, ?_, ?_⟩
  · intro msg n hn
    obtain ⟨hlt, ⟨e, he⟩, _⟩ := (reachable_inv p hp).2 _ n hn
    obtain ⟨c, rfl⟩ := typeOf_ptr msg e he
    refine ⟨.ptr e, c, rfl, ?_⟩
    have h1 : n / 256 % 256 = n / 256 := Nat.mod_eq_of_lt (by omega)
    simp only [TypeOf] at hn
    simp only [Processor.Marshal, TypeOf, hn, LittleEndianPutUint16, BigEndianPutUint16, h1]
  · intro msg hn
    simp only [Processor.Marshal, hn]

/-- Witness for C2 on the registry holding two registered types. -/
theorem Marshal_frame_format_witness :
    Reachable registryAB ∧
    registryAB.Marshal plainCodec (.obj (.ptr (.named 1)) [7, 8]) =
      .ok (some [[0, 1], [7, 8]], none) ∧
    registryAB.Marshal plainCodec (.obj (.ptr (.named 5)) [7, 8]) =
      .ok (none, some (.marshalNotRegistered (some (.ptr (.named 5))))) := by
  have h := Marshal_frame_format plainCodec registryAB reachable_registryAB
  refine ⟨reachable_registryAB, ?_, ?_⟩
  · obtain ⟨t, c, hm, hr⟩ := h.2.2.1 (.obj (.ptr (.named 1)) [7, 8]) 1 rfl
    cases hm
    exact hr
  · exact h.2.2.2 (.obj (.ptr (.named 5)) [7, 8]) rfl

/-! ## Unmarshal -/

/-- C4. Raw pass-through: for a frame of at least two bytes whose identifier, read in the
configured byte order, has a descriptor with a raw handler, `Unmarshal` returns the
`MsgRaw` of that identifier and of the frame without its first two bytes and no error,
whatever the payload and whatever the payload deserializer does. -/
theorem Unmarshal_raw_passthrough (p : Processor) (b0 b1 : Nat) (rest : List Nat)
    (i : MsgInfo) (h : Nat) (hb0 : b0 < 256) (hb1 : b1 < 256)
    (hi : p.msgInfo.get? (if p.littleEndian then b0 + b1 * 256 else b1 + b0 * 256) = some i)
    (hr : i.msgRawHandler = some h) (pb : Codec) :
    p.Unmarshal pb (b0 :: b1 :: rest) =
      .ok (some (.raw { msgID := if p.littleEndian then b0 + b1 * 256 else b1 + b0 * 256,
                        msgRawData := rest }), none) := by
  have m0 : b0 % 256 = b0 := Nat.mod_eq_of_lt hb0
  have m1 : b1 % 256 = b1 := Nat.mod_eq_of_lt hb1
  cases hle : p.littleEndian with
  | true =>
    simp only [hle, if_true] at hi
    simp [Processor.Unmarshal, hle, LittleEndianUint16, m0, m1, hi, hr]
  | false =>
    simp only [hle, Bool.false_eq_true, if_false] at hi
    simp [Processor.Unmarshal, hle, BigEndianUint16, m0, m1, hi, hr]

/-- Witness for C4: identifier 1 of `registryHandlers` has a raw handler, and the
deserializer of `rejectCodec` rejects every payload. -/
theorem Unmarshal_raw_passthrough_witness :
    registryHandlers.Unmarshal rejectCodec [0, 1, 200, 3] =
      .ok (some (.raw { msgID := 1, msgRawData := [200, 3] }), none) :=
  Unmarshal_raw_passthrough registryHandlers 0 1 [200, 3]
    { msgType := some (.ptr (.named 1)), msgRouter := none, msgHandler := none,
      msgRawHandler := some 13 } 13 (by decide) (by decide) rfl rfl rejectCodec

/-- C3. Unmarshal fails exactly on bad frames: in a reachable registry, a frame of length 0
or 1 and a frame whose identifier (its first two bytes read in the configured byte order)
has no descriptor both give an error and no message; a frame of length at least 2 whose
identifier has a descriptor gives a message, and an error only when the descriptor has no
raw handler and the payload deserializer fails on the bytes after the identifier. No case
panics. -/
theorem Unmarshal_fails_exactly_on_bad_frames (pb : Codec) (p : Processor)
    (hp : Reachable p) :
    (∀ data, data.length < 2 → p.Unmarshal pb data = .ok (none, some .dataTooShort)) ∧
    (∀ b0 b1 rest id, b0 < 256 → b1 < 256 →
      id = (if p.littleEndian then b0 + b1 * 256 else b1 + b0 * 256) →
      (p.msgInfo.get? id = none →
        p.Unmarshal pb (b0 :: b1 :: rest) = .ok (none, some .dataTooShort)) ∧
      (∀ i, p.msgInfo.get? id = some i →
        ∃ m err, p.Unmarshal pb (b0 :: b1 :: rest) = .ok (some m, err) ∧
          (err ≠ none ↔
            (i.msgRawHandler = none ∧
              ∃ t, i.msgType = some t ∧ (pb.UnmarshalMerge rest t zeroContent).2 ≠ none)))) := by
  refine ⟨fun data h => Unmarshal_short pb p data h, ?_⟩
  intro b0 b1 rest id hb0 hb1 hid
  subst hid
  constructor
  · intro hn
    rw [Unmarshal_frame pb p b0 b1 rest hb0 hb1, hn]
  · intro i hi
    rw [Unmarshal_frame pb p b0 b1 rest hb0 hb1, hi]
    obtain ⟨e, he⟩ := (reachable_inv p hp).1 _ i hi
    cases hr : i.msgRawHandler with
    | some h =>
      refine ⟨.raw { msgID := if p.littleEndian then b0 + b1 * 256 else b1 + b0 * 256,
                     msgRawData := rest }, none, by simp [hr], ?_⟩
      simp
    | none =>
      refine ⟨.obj (.ptr e) (pb.UnmarshalMerge rest (.ptr e) zeroContent).1,
        (pb.UnmarshalMerge rest (.ptr e) zeroContent).2.map GoError.proto, by simp [he, hr], ?_⟩
      constructor
      · intro h
        refine ⟨rfl, .ptr e, he, ?_⟩
        intro h2
        rw [h2] at h
        exact h rfl
      · rintro ⟨_, t, ht, h2⟩
        rw [he] at ht
        cases ht
        cases hx : (pb.UnmarshalMerge rest (.ptr e) zeroContent).2 with
        | none => exact absurd hx h2
        | some x => simp

/-- Witness for C3 on `registryHandlers` with a deserializer that always fails. -/
theorem Unmarshal_fails_exactly_on_bad_frames_witness :
    Reachable registryHandlers ∧
    registryHandlers.Unmarshal rejectCodec [7] = .ok (none, some .dataTooShort) ∧
    registryHandlers.Unmarshal rejectCodec [0, 2, 9] = .ok (none, some .dataTooShort) := by
  have h := Unmarshal_fails_exactly_on_bad_frames rejectCodec registryHandlers
    reachable_registryHandlers
  refine ⟨reachable_registryHandlers, h.1 [7] (by decide), ?_⟩
  exact (h.2 0 2 [9] 2 (by decide) (by decide) rfl).1 rfl

/-! ## Route -/

/-- C5. Route on a message that is not a `MsgRaw` and whose runtime type is not registered
returns an error and makes no call: no handler, no router enqueue, no raw handler; this
holds for every registry and every connection context. -/
theorem Route_unregistered_type (p : Processor) (msg : Msg) (userData : UserData)
    (hraw : ∀ r, msg ≠ .raw r) (hn : p.msgID.get? (TypeOf msg) = none) :
    p.Route msg userData = .ok (some (.routeNotRegistered (TypeOf msg)), []) := by
  cases msg with
  | raw r => exact absurd rfl (hraw r)
  | nil => simp only [Processor.Route, hn]
  | obj t c => simp only [Processor.Route, hn]

/-- Witness for C5: a type that `registryHandlers` does not hold, and the nil message. -/
theorem Route_unregistered_type_witness :
    registryHandlers.Route (.obj (.ptr (.named 5)) [1]) 42 =
      .ok (some (.routeNotRegistered (some (.ptr (.named 5)))), []) :=
  Route_unregistered_type registryHandlers (.obj (.ptr (.named 5)) [1]) 42
    (fun r h => by cases h) rfl

/-- C6. Route on a typed message of a registered type, in a reachable registry, returns
success; its calls are the synchronous handler of the descriptor under the type's
identifier (if any) with `[message, connectionContext]`, once, followed by the router of
that descriptor (if any) with `(message type, message, connectionContext)`, once. With both
attached the handler call comes first; with neither there is no call. -/
theorem Route_registered_type (p : Processor) (hp : Reachable p) (msg : Msg)
    (userData : UserData) (id : Nat) (hid : p.msgID.get? (TypeOf msg) = some id) :
    ∃ i, p.msgInfo.get? id = some i ∧
      p.Route msg userData =
        .ok (none,
          (match i.msgHandler with
            | some h => [Call.handler h [.msg msg, .userData userData]]
            | none => []) ++
          (match i.msgRouter with
            | some r => [Call.routerGo r (.type (TypeOf msg)) [.msg msg, .userData userData]]
            | none => [])) ∧
      (∀ h r, i.msgHandler = some h → i.msgRouter = some r →
        p.Route msg userData =
          .ok (none, [Call.handler h [.msg msg, .userData userData],
                      Call.routerGo r (.type (TypeOf msg)) [.msg msg, .userData userData]])) ∧
      (i.msgHandler = none → i.msgRouter = none → p.Route msg userData = .ok (none, [])) := by
  obtain ⟨_, ⟨e, he⟩, hsome⟩ := (reachable_inv p hp).2 _ id hid
  obtain ⟨c, rfl⟩ := typeOf_ptr msg e he
  cases hi : p.msgInfo.get? id with
  | none => simp [hi] at hsome
  | some i =>
    have hR : p.Route (.obj (.ptr e) c) userData =
        .ok (none, Processor.typedCalls i (some (.ptr e)) (.obj (.ptr e) c) userData) := by
      simp only [TypeOf] at hid
      simp only [Processor.Route, TypeOf, hid, hi]
    refine ⟨i, rfl, ?_, ?_, ?_⟩
    · rw [hR]; rfl
    · intro h r hh hr
      rw [hR]; simp [Processor.typedCalls, hh, hr, TypeOf]
    · intro hh hr
      rw [hR]; simp [Processor.typedCalls, hh, hr]

/-- Witness for C6: type `T0` of `registryHandlers` has handler 11 and router 12. -/
theorem Route_registered_type_witness :
    Reachable registryHandlers ∧
    registryHandlers.Route (.obj (.ptr (.named 0)) [5]) 42 =
      .ok (none, [Call.handler 11 [.msg (.obj (.ptr (.named 0)) [5]), .userData 42],
                  Call.routerGo 12 (.type (some (.ptr (.named 0))))
                    [.msg (.obj (.ptr (.named 0)) [5]), .userData 42]]) := by
  refine ⟨reachable_registryHandlers, ?_⟩
  obtain ⟨i, hi, _, hboth, _⟩ :=
    Route_registered_type registryHandlers reachable_registryHandlers
      (.obj (.ptr (.named 0)) [5]) 42 0 rfl
  have hi2 : i = { msgType := some (.ptr (.named 0)), msgRouter := some 12,
                   msgHandler := some 11, msgRawHandler := none } := by
    have h0 : registryHandlers.msgInfo.get? 0 =
        some { msgType := some (.ptr (.named 0)), msgRouter := some 12,
               msgHandler := some 11, msgRawHandler := none } := rfl
    rw [h0] at hi
    exact (Option.some.inj hi).symm
  subst hi2
  exact hboth 11 12 rfl rfl

/-- C7, evaluated at its failing input: routing the zero-value `MsgRaw` on a new processor,
where identifier 0 has no descriptor, ends in a nil-pointer panic instead of returning
success. In general `Route` on a `MsgRaw` panics when the identifier holds no descriptor,
and otherwise returns success after calling the raw handler, if one is attached, once with
`[id, bytes, connectionContext]`. -/
theorem Route_raw_without_descriptor_panics :
    (∀ userData : UserData,
      NewProcessor.Route (.raw { msgID := 0, msgRawData := [] }) userData
        = .error .panicNilDeref) ∧
    (∀ (p : Processor) (r : MsgRaw) (userData : UserData),
      p.Route (.raw r) userData =
        match p.msgInfo.get? r.msgID with
        | none => .error .panicNilDeref
        | some i =>
          .ok (none,
            match i.msgRawHandler with
            | some h => [Call.handler h [.id r.msgID, .bytes r.msgRawData, .userData userData]]
            | none => [])) := by
  refine ⟨fun _ => rfl, ?_⟩
  intro p r userData
  simp only [Processor.Route]
  cases p.msgInfo.get? r.msgID with
  | none => rfl
  | some i =>
    simp only
    cases i.msgRawHandler with
    | none => rfl
    | some h => rfl

/-! ## Registration -/

/-- C8. Duplicate registration is fatal: in every registry `Register(m)` and
`RegisterWithId(m, id)`, for every `id`, end in `log.Fatal` when the type of `m` is already
registered; and the registration of a pointer type not yet registered, while fewer than
65535 descriptors are held, returns (`Register` with the descriptor count as identifier,
`RegisterWithId` with the identifier supplied). -/
theorem duplicate_registration_fatal (p : Processor) (m : Msg) :
    ((p.msgID.get? (TypeOf m)).isSome →
      (∃ a, p.Register m = .error a ∧ a.isFatal = true) ∧
      (∀ id, ∃ a, p.RegisterWithId m id = .error a ∧ a.isFatal = true)) ∧
    (∀ e, TypeOf m = some (.ptr e) → p.msgID.get? (TypeOf m) = none →
      p.msgInfo.len < 65535 →
      (∃ q, p.Register m = .ok (q, p.msgInfo.len)) ∧
      (∀ id, ∃ q, p.RegisterWithId m id = .ok (q, id))) := by
  constructor
  · intro hreg
    by_cases hp : ∃ e, TypeOf m = some (.ptr e)
    · obtain ⟨e, he⟩ := hp
      obtain ⟨c, rfl⟩ := typeOf_ptr m e he
      simp only [TypeOf] at hreg
      constructor
      · exact ⟨.fatalAlreadyRegistered, by rw [Register_ptr]; simp [hreg], rfl⟩
      · intro id
        exact ⟨.fatalAlreadyRegistered, by rw [RegisterWithId_ptr]; simp [hreg], rfl⟩
    · have hne : ∀ e, TypeOf m ≠ some (.ptr e) := fun e he => hp ⟨e, he⟩
      constructor
      · exact ⟨.fatalPointerRequired, Register_abort_of_not_ptr p m hne, rfl⟩
      · intro id
        exact ⟨.fatalPointerRequired, RegisterWithId_abort_of_not_ptr p m id hne, rfl⟩
  · intro e he hn hl
    obtain ⟨c, rfl⟩ := typeOf_ptr m e he
    simp only [TypeOf] at hn
    have hm : p.msgInfo.len % 65536 = p.msgInfo.len := Nat.mod_eq_of_lt (by omega)
    have hl2 : ¬ p.msgInfo.len ≥ 65535 := by omega
    constructor
    · rw [Register_ptr]
      simp only [hn, Option.isSome_none, hl2, hm]
      exact ⟨_, rfl⟩
    · intro id
      rw [RegisterWithId_ptr]
      simp only [hn, Option.isSome_none, hl2]
      exact ⟨_, rfl⟩

/-- Witness for C8 on `registryAB`: `T0` is registered, `T5` is not. -/
theorem duplicate_registration_fatal_witness :
    (∃ a, registryAB.Register (sampleMsg 0) = .error a ∧ a.isFatal = true) ∧
    (∃ q, registryAB.Register (sampleMsg 5) = .ok (q, 2)) :=
  ⟨((duplicate_registration_fatal registryAB (sampleMsg 0)).1 rfl).1,
   ((duplicate_registration_fatal registryAB (sampleMsg 5)).2 (.named 5) rfl rfl
      (by decide)).1⟩

theorem Register_full (q : Processor) (hfull : q.msgInfo.len = 65535) (m : Msg) :
    ∃ a, q.Register m = .error a ∧ a.isFatal = true := by
  by_cases hp : ∃ e, TypeOf m = some (.ptr e)
  · obtain ⟨e, he⟩ := hp
    obtain ⟨c, rfl⟩ := typeOf_ptr m e he
    rw [Register_ptr]
    cases hg : (q.msgID.get? (some (.ptr e))).isSome with
    | true => exact ⟨.fatalAlreadyRegistered, by simp, rfl⟩
    | false => exact ⟨.fatalTooMany, by simp [hfull], rfl⟩
  · exact ⟨.fatalPointerRequired,
      Register_abort_of_not_ptr q m (fun e he => hp ⟨e, he⟩), rfl⟩

/-- C9 fails as stated: on 65536 pairwise distinct pointer-typed messages the first 65535
`Register` calls return and the 65536th ends in `log.Fatal` ("too many protobuf
messages"). -/
theorem registration_capacity_counterexample :
    (∀ m ∈ sampleMsgs 65536, ∃ e, TypeOf m = some (.ptr e)) ∧
    ((sampleMsgs 65536).map TypeOf).Nodup ∧
    (∃ q, registerAll NewProcessor (sampleMsgs 65535) = .ok (q, List.range 65535)) ∧
    registerAll NewProcessor (sampleMsgs 65536) = .error .fatalTooMany := by
  refine ⟨sampleMsgs_ptr _, sampleMsgs_nodup _, ?_⟩
  have hlen : NewProcessor.msgInfo.len + (sampleMsgs 65535).length ≤ 65535 := by
    rw [sampleMsgs_length]
    exact Nat.le_of_eq (Nat.zero_add _)
  obtain ⟨q, ids, hq⟩ := registerAll_succeeds (sampleMsgs 65535) NewProcessor
    keysBelowLen_new (sampleMsgs_ptr _) (sampleMsgs_nodup _) (fun _ _ => rfl) hlen
  obtain ⟨hids, _, hql, _, _, htrack⟩ :=
    registerAll_inv _ _ _ _ keysBelowLen_new hq
  rw [sampleMsgs_length] at hids hql
  have hql2 : q.msgInfo.len = 65535 := by
    rw [hql]; exact Nat.zero_add _
  have hids2 : ids = List.range 65535 := by
    rw [hids, List.range_eq_range']
    rfl
  refine ⟨⟨q, hids2 ▸ hq⟩, ?_⟩
  have hsplit : sampleMsgs 65536 = sampleMsgs 65535 ++ [sampleMsg 65535] :=
    sampleMsgs_succ 65535
  have hfresh : q.msgID.get? (some (.ptr (.named 65535))) = none := by
    cases hg : q.msgID.get? (some (.ptr (.named 65535))) with
    | none => rfl
    | some n =>
      exfalso
      rcases htrack (some (.ptr (.named 65535))) (by rw [hg]; rfl) with h | h
      · exact absurd h (by simp [NewProcessor, GoMap.get?])
      · rw [sampleMsgs_types] at h
        obtain ⟨k, hk, hkeq⟩ := List.mem_map.1 h
        have hk2 : k < 65535 := List.mem_range.1 hk
        have hk3 : k = 65535 := by simpa using hkeq
        omega
  have hlast : q.Register (sampleMsg 65535) = .error .fatalTooMany := by
    show q.Register (.obj (.ptr (.named 65535)) []) = _
    rw [Register_ptr, hfresh, hql2]
    rfl
  rw [hsplit, registerAll_append, hq]
  simp only
  rw [registerAll_cons, hlast]

/-- C9, amended. Registration capacity: starting from `NewProcessor`, `Register` calls on at
most 65535 pairwise distinct pointer-typed messages all return, with the identifiers
`0, 1, ...` in call order (so at most the identifiers 0 to 65534 are used); once 65535
distinct types are registered every further `Register` call ends in `log.Fatal`. -/
theorem registration_capacity (ms : List Msg)
    (hptr : ∀ m ∈ ms, ∃ e, TypeOf m = some (.ptr e)) (hnd : (ms.map TypeOf).Nodup)
    (hlen : ms.length ≤ 65535) :
    ∃ q, registerAll NewProcessor ms = .ok (q, List.range ms.length) ∧
      (ms.length = 65535 → ∀ m, ∃ a, q.Register m = .error a ∧ a.isFatal = true) := by
  have hlen2 : NewProcessor.msgInfo.len + ms.length ≤ 65535 := by
    have : NewProcessor.msgInfo.len = 0 := rfl
    omega
  obtain ⟨q, ids, hq⟩ := registerAll_succeeds ms NewProcessor
    keysBelowLen_new hptr hnd (fun _ _ => rfl) hlen2
  obtain ⟨hids, _, hql, _, _, _⟩ := registerAll_inv _ _ _ _ keysBelowLen_new hq
  have h0 : NewProcessor.msgInfo.len = 0 := rfl
  rw [h0] at hids hql
  refine ⟨q, ?_, ?_⟩
  · rw [hq, hids, List.range_eq_range']
  · intro hfull m
    exact Register_full q (by omega) m

/-- Witness for the amended C9 on two distinct pointer types. -/
theorem registration_capacity_witness :
    (∀ m ∈ sampleMsgs 2, ∃ e, TypeOf m = some (.ptr e)) ∧
    ((sampleMsgs 2).map TypeOf).Nodup ∧ (sampleMsgs 2).length ≤ 65535 ∧
    ∃ q, registerAll NewProcessor (sampleMsgs 2) = .ok (q, List.range (sampleMsgs 2).length) ∧
      ((sampleMsgs 2).length = 65535 →
        ∀ m, ∃ a, q.Register m = .error a ∧ a.isFatal = true) :=
  ⟨sampleMsgs_ptr 2, sampleMsgs_nodup 2, by decide,
   registration_capacity (sampleMsgs 2) (sampleMsgs_ptr 2) (sampleMsgs_nodup 2) (by decide)⟩

/-- C10. Sequential identifiers: when a run of `Register` calls on a new processor
returns, the identifiers returned are `0, 1, ..., n - 1` in call order, and `Unmarshal` of
the frame `[0x00, 0x00]` under the default byte order returns a value of the first
registered type. -/
theorem sequential_identifiers (pb : Codec) (ms : List Msg) (q : Processor) (ids : List Nat)
    (h : registerAll NewProcessor ms = .ok (q, ids)) :
    ids = List.range ms.length ∧
    (∀ m0 rest, ms = m0 :: rest →
      ∃ t c err, TypeOf m0 = some t ∧ q.Unmarshal pb [0, 0] = .ok (some (.obj t c), err)) := by
  have h0 : NewProcessor.msgInfo.len = 0 := rfl
  constructor
  · obtain ⟨hids, _⟩ := registerAll_inv _ _ _ _ keysBelowLen_new h
    rw [hids, h0, List.range_eq_range']
  · intro m0 rest hms
    subst hms
    obtain ⟨q1, id, rids, h1, h2, _⟩ := registerAll_cons_ok _ _ _ _ _ h
    obtain ⟨e, he, _, _, _, hqi, _, hqe⟩ := Register_step _ _ _ _ keysBelowLen_new h1
    obtain ⟨hk1, hl1⟩ := keysBelowLen_cons _ _ _ keysBelowLen_new hqi
    obtain ⟨_, _, _, hget, hle, _⟩ := registerAll_inv _ _ _ _ hk1 h2
    have hget0 : q.msgInfo.get? 0 = some (freshInfo (.ptr e)) := by
      rw [hget 0 (by rw [hl1, h0]; exact Nat.zero_lt_one), hqi, h0]
      rfl
    have hle0 : q.littleEndian = false := by rw [hle, hqe]; rfl
    refine ⟨.ptr e, (pb.UnmarshalMerge [] (.ptr e) zeroContent).1,
      (pb.UnmarshalMerge [] (.ptr e) zeroContent).2.map GoError.proto, he, ?_⟩
    rw [Unmarshal_frame pb q 0 0 [] (by decide) (by decide), hle0]
    simp only [Bool.false_eq_true, if_false]
    show (match q.msgInfo.get? 0 with
      | none => _
      | some i => _) = _
    rw [hget0]
    rfl

/-- Witness for C10: `T0` then `T1` registered on a new processor. -/
theorem sequential_identifiers_witness :
    registerAll NewProcessor [sampleMsg 0, sampleMsg 1] = .ok (registryAB, [0, 1]) ∧
    [0, 1] = List.range [sampleMsg 0, sampleMsg 1].length ∧
    (∀ m0 rest, [sampleMsg 0, sampleMsg 1] = m0 :: rest →
      ∃ t c err, TypeOf m0 = some t ∧
        registryAB.Unmarshal plainCodec [0, 0] = .ok (some (.obj t c), err)) :=
  ⟨rfl, sequential_identifiers plainCodec [sampleMsg 0, sampleMsg 1] registryAB [0, 1] rfl⟩

/-! ## Round trip -/

theorem plainCodec_inverts (t : RType) : CodecInverts plainCodec t := by
  intro c
  exact ⟨rfl, rfl⟩

/-- C1 fails as stated: after `RegisterWithId(&T0{}, 7)` and `RegisterWithId(&T1{}, 7)` on
a new processor, with a payload serializer that its deserializer inverts, `Marshal` of a
`*T0` value returns, and `Unmarshal` of the two segments joined returns a `*T1` value, not
the `*T0` value marshalled. Likewise in `registryHandlers`, where identifier 1 has a raw
handler, `Unmarshal` of a marshalled `*T1` value returns a `MsgRaw`. -/
theorem roundtrip_counterexample :
    NewProcessor.RegisterWithId (sampleMsg 0) 7 = .ok (registryOne, 7) ∧
    registryOne.RegisterWithId (sampleMsg 1) 7 = .ok (registryCollide, 7) ∧
    Reachable registryCollide ∧
    CodecInverts plainCodec (.ptr (.named 0)) ∧
    (registryCollide.msgID.get? (TypeOf (.obj (.ptr (.named 0)) [5]))).isSome = true ∧
    registryCollide.Marshal plainCodec (.obj (.ptr (.named 0)) [5]) =
      .ok (some [[0, 7], [5]], none) ∧
    registryCollide.Unmarshal plainCodec ([0, 7] ++ [5]) =
      .ok (some (.obj (.ptr (.named 1)) [5]), none) ∧
    Msg.obj (.ptr (.named 1)) [5] ≠ Msg.obj (.ptr (.named 0)) [5] ∧
    Reachable registryHandlers ∧
    registryHandlers.Marshal plainCodec (.obj (.ptr (.named 1)) [5]) =
      .ok (some [[0, 1], [5]], none) ∧
    registryHandlers.Unmarshal plainCodec ([0, 1] ++ [5]) =
      .ok (some (.raw { msgID := 1, msgRawData := [5] }), none) := by
  have s1 : NewProcessor.RegisterWithId (sampleMsg 0) 7 = .ok (registryOne, 7) := rfl
  have s2 : registryOne.RegisterWithId (sampleMsg 1) 7 = .ok (registryCollide, 7) := rfl
  refine ⟨s1, s2, ?_, plainCodec_inverts _, rfl, rfl, rfl, by decide,
    reachable_registryHandlers, rfl, rfl⟩
  exact Reachable.registerWithId (Reachable.registerWithId Reachable.new (by decide) s1)
    (by decide) s2

/-- C1, amended. Round trip: in a reachable registry, under either byte order, for a
registered type `t` whose identifier holds a descriptor that records `t` itself and has no
raw handler, and a payload deserializer that inverts the payload serializer on `t`, `Marshal`
of a value of type `t` returns two segments and no error, and `Unmarshal` of the two
segments joined returns that same value and no error. -/
theorem roundtrip (pb : Codec) (p : Processor) (hp : Reachable p) (t : RType) (id : Nat)
    (i : MsgInfo) (hid : p.msgID.get? (some t) = some id) (hi : p.msgInfo.get? id = some i)
    (ht : i.msgType = some t) (hraw : i.msgRawHandler = none) (hc : CodecInverts pb t)
    (c : Content) :
    ∃ hdr payload, p.Marshal pb (.obj t c) = .ok (some [hdr, payload], none) ∧
      p.Unmarshal pb (hdr ++ payload) = .ok (some (.obj t c), none) := by
  obtain ⟨hlt, ⟨e, he⟩, _⟩ := (reachable_inv p hp).2 _ id hid
  cases he
  obtain ⟨hc1, hc2⟩ := hc c
  have hM : p.Marshal pb (.obj (.ptr e) c) =
      .ok (some [if p.littleEndian then LittleEndianPutUint16 id else BigEndianPutUint16 id,
                 (pb.Marshal (.ptr e) c).1], none) := by
    simp only [Processor.Marshal, TypeOf, hid, hc1, Option.map_none']
  refine ⟨_, _, hM, ?_⟩
  have hdiv : id / 256 % 256 = id / 256 := Nat.mod_eq_of_lt (by omega)
  cases hle : p.littleEndian with
  | true =>
    simp only [if_true, LittleEndianPutUint16, List.cons_append, List.nil_append]
    rw [Unmarshal_frame pb p _ _ _ (Nat.mod_lt _ (by decide)) (Nat.mod_lt _ (by decide)), hle]
    simp only [if_true]
    have hidx : id % 256 + id / 256 % 256 * 256 = id := by omega
    rw [hidx, hi]
    simp only [hraw, ht, hc2, Option.isSome_none, Bool.false_eq_true, if_false,
      Option.map_none']
  | false =>
    simp only [Bool.false_eq_true, if_false, BigEndianPutUint16, List.cons_append,
      List.nil_append]
    rw [Unmarshal_frame pb p _ _ _ (Nat.mod_lt _ (by decide)) (Nat.mod_lt _ (by decide)), hle]
    simp only [Bool.false_eq_true, if_false]
    have hidx : id % 256 + id / 256 % 256 * 256 = id := by omega
    rw [hidx, hi]
    simp only [hraw, ht, hc2, Option.isSome_none, Bool.false_eq_true, if_false,
      Option.map_none']

/-- Witness for the amended C1: type `T1` of `registryAB` under the plain serializer. -/
theorem roundtrip_witness :
    ∃ hdr payload,
      registryAB.Marshal plainCodec (.obj (.ptr (.named 1)) [3, 4]) =
        .ok (some [hdr, payload], none) ∧
      registryAB.Unmarshal plainCodec (hdr ++ payload) =
        .ok (some (.obj (.ptr (.named 1)) [3, 4]), none) :=
  roundtrip plainCodec registryAB reachable_registryAB (.ptr (.named 1)) 1
    (freshInfo (.ptr (.named 1))) rfl rfl rfl rfl (plainCodec_inverts _) [3, 4]

/-! ## Raw handlers end to end -/

/-- C18. Raw takes precedence end to end: when the identifier of a frame of at least two
bytes holds a descriptor with a raw handler, whatever synchronous handler and router that
descriptor also has, `Unmarshal` returns a message and no error, and `Route` on that message
returns success after exactly one call, the raw handler with
`[id, frame without its first two bytes, connectionContext]`. -/
theorem raw_takes_precedence (pb : Codec) (p : Processor) (b0 b1 : Nat) (rest : List Nat)
    (i : MsgInfo) (h : Nat) (userData : UserData) (hb0 : b0 < 256) (hb1 : b1 < 256)
    (hi : p.msgInfo.get? (if p.littleEndian then b0 + b1 * 256 else b1 + b0 * 256) = some i)
    (hr : i.msgRawHandler = some h) :
    ∃ m, p.Unmarshal pb (b0 :: b1 :: rest) = .ok (some m, none) ∧
      p.Route m userData =
        .ok (none, [Call.handler h
          [.id (if p.littleEndian then b0 + b1 * 256 else b1 + b0 * 256), .bytes rest,
           .userData userData]]) := by
  refine ⟨.raw { msgID := if p.littleEndian then b0 + b1 * 256 else b1 + b0 * 256,
                 msgRawData := rest }, ?_, ?_⟩
  · rw [Unmarshal_frame pb p b0 b1 rest hb0 hb1, hi]
    simp [hr]
  · simp only [Processor.Route, hi, hr]

/-- Witness for C18: identifier 0 of `registryRawBoth` has handler 11, router 12 and raw
handler 14. -/
theorem raw_takes_precedence_witness :
    ∃ m, registryRawBoth.Unmarshal rejectCodec [0, 0, 9, 8] = .ok (some m, none) ∧
      registryRawBoth.Route m 42 =
        .ok (none, [Call.handler 14 [.id 0, .bytes [9, 8], .userData 42]]) :=
  raw_takes_precedence rejectCodec registryRawBoth 0 0 [9, 8]
    { msgType := some (.ptr (.named 0)), msgRouter := some 12, msgHandler := some 11,
      msgRawHandler := some 14 } 14 42 (by decide) (by decide) rfl rfl

/-! ## Identifier collisions -/

theorem reachable_descriptor_registered (p : Processor) (h : Reachable p) :
    ∀ id i, p.msgInfo.get? id = some i → p.msgID.get? i.msgType = some id := by
  have ins : ∀ (p : Processor) (e : RType) (id : Nat),
      p.msgID.get? (some (.ptr e)) = none →
      (∀ k i, p.msgInfo.get? k = some i → p.msgID.get? i.msgType = some k) →
      ∀ k i, (p.msgInfo.set id (freshInfo (.ptr e))).get? k = some i →
        (p.msgID.set (some (.ptr e)) id).get? i.msgType = some k := by
    intro p e id hn ih k i hk
    rw [GoMap.get?_set] at hk
    rw [GoMap.get?_set]
    by_cases hki : k = id
    · simp only [hki, if_true] at hk
      cases hk
      simp [hki, freshInfo]
    · simp only [hki, if_false] at hk
      have h1 := ih k i hk
      have hne : i.msgType ≠ some (.ptr e) := by
        intro heq
        rw [heq, hn] at h1
        cases h1
      rw [if_neg hne]
      exact h1
  have mdf : ∀ (p : Processor) (id : Nat) (f : MsgInfo → MsgInfo),
      (∀ i, (f i).msgType = i.msgType) →
      (∀ k i, p.msgInfo.get? k = some i → p.msgID.get? i.msgType = some k) →
      ∀ k i, (p.msgInfo.modify id f).get? k = some i → p.msgID.get? i.msgType = some k := by
    intro p id f hf ih k i hk
    rw [GoMap.get?_modify] at hk
    by_cases hki : k = id
    · subst hki
      simp only [if_true] at hk
      cases hj : p.msgInfo.get? k with
      | none => rw [hj] at hk; cases hk
      | some j =>
        rw [hj] at hk
        simp only [Option.map_some'] at hk
        cases hk
        rw [hf]
        exact ih k j hj
    · simp only [hki, if_false] at hk
      exact ih k i hk
  induction h with
  | new => intro id i hi; cases hi
  | setByteOrder b _ ih => exact ih
  | register _ hr ih =>
    obtain ⟨e, _, hn, _, _, hq⟩ := Register_ok _ _ _ _ hr
    subst hq
    exact ins _ e _ hn ih
  | registerWithId _ _ hr ih =>
    obtain ⟨e, _, hn, _, _, hq⟩ := RegisterWithId_ok _ _ _ _ _ hr
    subst hq
    exact ins _ e _ hn ih
  | @setRouter p q msg h _ hr ih =>
    obtain ⟨id, _, hq⟩ := SetRouter_ok _ _ _ _ hr
    subst hq
    exact mdf p id (fun i => { i with msgRouter := h }) (fun _ => rfl) ih
  | @setHandler p q msg h _ hr ih =>
    obtain ⟨id, _, hq⟩ := SetHandler_ok _ _ _ _ hr
    subst hq
    exact mdf p id (fun i => { i with msgHandler := h }) (fun _ => rfl) ih
  | @setRawHandler p q id h _ _ hr ih =>
    have hq := SetRawHandler_ok _ _ _ _ hr
    subst hq
    exact mdf p id (fun i => { i with msgRawHandler := h }) (fun _ => rfl) ih

theorem collision_step (pb : Codec) (p : Processor) (A : RType) (e : RType)
    (id : Nat) (c : Content)
    (hid : id < 65536)
    (hA : p.msgID.get? (some A) = some id)
    (hB : p.msgID.get? (some (.ptr e)) = none)
    (hl : p.msgInfo.len < 65535) :
    ∃ q, p.RegisterWithId (.obj (.ptr e) c) id = .ok (q, id) ∧
      q.msgInfo.get? id = some (freshInfo (.ptr e)) ∧
      q.msgID.get? (some A) = some id ∧
      q.msgID.get? (some (.ptr e)) = some id ∧
      (∀ cA, q.Marshal pb (.obj A cA) =
        .ok (some [if q.littleEndian then [id % 256, id / 256] else [id / 256, id % 256],
                   (pb.Marshal A cA).1],
             (pb.Marshal A cA).2.map GoError.proto)) ∧
      (∀ rest, q.Unmarshal pb
          ((if q.littleEndian then [id % 256, id / 256] else [id / 256, id % 256]) ++ rest) =
        .ok (some (.obj (.ptr e) (pb.UnmarshalMerge rest (.ptr e) zeroContent).1),
             (pb.UnmarshalMerge rest (.ptr e) zeroContent).2.map GoError.proto)) := by
  have hne : some A ≠ some (.ptr e) := by
    intro h
    rw [h, hB] at hA
    cases hA
  have hl2 : ¬ p.msgInfo.len ≥ 65535 := by omega
  have hR := RegisterWithId_ptr p e c id
  simp only [hB, Option.isSome_none, hl2] at hR
  simp only [Bool.false_eq_true, if_false] at hR
  have hqi : (p.msgInfo.set id (freshInfo (.ptr e))).get? id = some (freshInfo (.ptr e)) := by
    rw [GoMap.get?_set]; simp
  have hqA : (p.msgID.set (some (.ptr e)) id).get? (some A) = some id := by
    rw [GoMap.get?_set, if_neg hne, hA]
  have hqB : (p.msgID.set (some (.ptr e)) id).get? (some (.ptr e)) = some id := by
    rw [GoMap.get?_set]; simp
  have hdiv : id / 256 % 256 = id / 256 := Nat.mod_eq_of_lt (by omega)
  have hidx : id % 256 + id / 256 * 256 = id := by omega
  refine ⟨_, hR, hqi, hqA, hqB, ?_, ?_⟩
  · intro cA
    simp only [Processor.Marshal, TypeOf, hqA, LittleEndianPutUint16, BigEndianPutUint16, hdiv]
  · intro rest
    cases hle : p.littleEndian with
    | true =>
      simp only [if_true, List.cons_append, List.nil_append]
      rw [Unmarshal_frame pb _ _ _ _ (Nat.mod_lt _ (by decide)) (by omega)]
      simp only [hle, if_true, hidx, hqi]
      rfl
    | false =>
      simp only [Bool.false_eq_true, if_false, List.cons_append, List.nil_append]
      rw [Unmarshal_frame pb _ _ _ _ (by omega) (Nat.mod_lt _ (by decide))]
      simp only [hle, Bool.false_eq_true, if_false, hidx, hqi]
      rfl

/-- C17. Explicit-id collision overwrites silently: in a reachable registry, when
identifier `id` holds a descriptor for type `A` and the pointer type `B` is not registered
while fewer than 65535 descriptors are held, `RegisterWithId(B, id)` returns `id`;
afterwards the descriptor under `id` records `B` with no handler, router or raw handler,
`A` still maps to `id`, `Marshal` of a value of type `A` writes the identifier `id`, and
`Unmarshal` of a frame carrying `id` returns a value of type `B`. -/
theorem explicit_id_collision (pb : Codec) (p : Processor) (hp : Reachable p) (A : RType)
    (e : RType) (id : Nat) (iA : MsgInfo) (c : Content)
    (hiA : p.msgInfo.get? id = some iA) (htA : iA.msgType = some A)
    (hB : p.msgID.get? (some (.ptr e)) = none)
    (hl : p.msgInfo.len < 65535) :
    ∃ q, p.RegisterWithId (.obj (.ptr e) c) id = .ok (q, id) ∧
      q.msgInfo.get? id = some (freshInfo (.ptr e)) ∧
      q.msgID.get? (some A) = some id ∧
      q.msgID.get? (some (.ptr e)) = some id ∧
      (∀ cA, q.Marshal pb (.obj A cA) =
        .ok (some [if q.littleEndian then [id % 256, id / 256] else [id / 256, id % 256],
                   (pb.Marshal A cA).1],
             (pb.Marshal A cA).2.map GoError.proto)) ∧
      (∀ rest, q.Unmarshal pb
          ((if q.littleEndian then [id % 256, id / 256] else [id / 256, id % 256]) ++ rest) =
        .ok (some (.obj (.ptr e) (pb.UnmarshalMerge rest (.ptr e) zeroContent).1),
             (pb.UnmarshalMerge rest (.ptr e) zeroContent).2.map GoError.proto)) := by
  have hA : p.msgID.get? (some A) = some id := by
    have := reachable_descriptor_registered p hp id iA hiA
    rw [htA] at this
    exact this
  have hid : id < 65536 := ((reachable_inv p hp).2 _ id hA).1
  exact collision_step pb p A e id c hid hA hB hl

/-- Witness for C17: `RegisterWithId(&T1{}, 7)` on `registryOne`, where 7 holds `T0`. -/
theorem explicit_id_collision_witness :
    Reachable registryOne ∧
    ∃ q, registryOne.RegisterWithId (.obj (.ptr (.named 1)) []) 7 = .ok (q, 7) ∧
      q.msgInfo.get? 7 = some (freshInfo (.ptr (.named 1))) ∧
      q.msgID.get? (some (.ptr (.named 0))) = some 7 ∧
      q.msgID.get? (some (.ptr (.named 1))) = some 7 ∧
      (∀ cA, q.Marshal plainCodec (.obj (.ptr (.named 0)) cA) =
        .ok (some [if q.littleEndian then [7 % 256, 7 / 256] else [7 / 256, 7 % 256],
                   (plainCodec.Marshal (.ptr (.named 0)) cA).1],
             (plainCodec.Marshal (.ptr (.named 0)) cA).2.map GoError.proto)) ∧
      (∀ rest, q.Unmarshal plainCodec
          ((if q.littleEndian then [7 % 256, 7 / 256] else [7 / 256, 7 % 256]) ++ rest) =
        .ok (some (.obj (.ptr (.named 1))
                (plainCodec.UnmarshalMerge rest (.ptr (.named 1)) zeroContent).1),
             (plainCodec.UnmarshalMerge rest (.ptr (.named 1)) zeroContent).2.map
               GoError.proto)) :=
  ⟨reachable_registryOne,
   explicit_id_collision plainCodec registryOne reachable_registryOne (.ptr (.named 0))
    (.named 1) 7 (freshInfo (.ptr (.named 0))) [] rfl rfl rfl (by decide)⟩

/-- C19. Register picks its identifier from the descriptor count: every `Register` call that
returns, returns the number of descriptors held before the call; after
`RegisterWithId(&T0{}, 1)` on a new processor, `Register(&T1{})` returns 1, the descriptor
under 1 then records `T1`, and `T0` and `T1` both map to 1. -/
theorem Register_uses_descriptor_count :
    (∀ (p q : Processor) (m : Msg) (id : Nat),
      p.Register m = .ok (q, id) → id = p.msgInfo.len) ∧
    NewProcessor.RegisterWithId (sampleMsg 0) 1 = .ok (registryWith1, 1) ∧
    registryWith1.Register (sampleMsg 1) = .ok (registryShared, 1) ∧
    registryWith1.msgInfo.get? 1 = some (freshInfo (.ptr (.named 0))) ∧
    registryShared.msgInfo.get? 1 = some (freshInfo (.ptr (.named 1))) ∧
    registryShared.msgID.get? (some (.ptr (.named 0))) = some 1 ∧
    registryShared.msgID.get? (some (.ptr (.named 1))) = some 1 := by
  refine ⟨?_, rfl, rfl, rfl, rfl, rfl, rfl⟩
  intro p q m id h
  obtain ⟨_, _, _, _, hid, _⟩ := Register_ok p q m id h
  exact hid

/-- Witness for C19: `Register(&T1{})` on `registryA`, which holds one descriptor. -/
theorem Register_uses_descriptor_count_witness :
    registryA.Register (sampleMsg 1) = .ok (registryAB, 1) ∧ 1 = registryA.msgInfo.len :=
  ⟨rfl, Register_uses_descriptor_count.1 registryA registryAB (sampleMsg 1) 1 rfl⟩

/-! ## SetRawHandler -/

/-- C12, evaluated at its failing inputs: after `RegisterWithId(&T0{}, 7)` on a new
processor, identifier 7 holds a descriptor and one descriptor is held; `SetRawHandler(7, h)`
ends in `log.Fatal` ("not registered"), because 7 is not below the descriptor count, and
`SetRawHandler(0, h)` passes the guard and panics on the nil descriptor of identifier 0. In
general `SetRawHandler` compares the identifier with the descriptor count. -/
theorem SetRawHandler_guard_uses_count :
    NewProcessor.RegisterWithId (sampleMsg 0) 7 = .ok (registryOne, 7) ∧
    registryOne.msgInfo.get? 7 = some (freshInfo (.ptr (.named 0))) ∧
    registryOne.SetRawHandler 7 (some 9) = .error .fatalNotRegistered ∧
    registryOne.msgInfo.get? 0 = none ∧
    registryOne.SetRawHandler 0 (some 9) = .error .panicNilDeref ∧
    (∀ (p : Processor) (id : Nat) (h : MsgHandler),
      p.SetRawHandler id h =
        if id ≥ p.msgInfo.len % 65536 then .error .fatalNotRegistered
        else
          match p.msgInfo.get? id with
          | none => .error .panicNilDeref
          | some _ =>
            .ok { p with
                  msgInfo := p.msgInfo.modify id (fun i => { i with msgRawHandler := h }) }) := by
  refine ⟨rfl, rfl, rfl, rfl, rfl, ?_⟩
  intro p id h
  rfl

/-! ## SetHandler and SetRouter -/

theorem modify_frame (p : Processor) (id : Nat) (f : MsgInfo → MsgInfo) (i : MsgInfo)
    (hi : p.msgInfo.get? id = some i) :
    (p.msgInfo.modify id f).get? id = some (f i) ∧
    (∀ k, k ≠ id → (p.msgInfo.modify id f).get? k = p.msgInfo.get? k) ∧
    (p.msgInfo.modify id f).len = p.msgInfo.len := by
  refine ⟨?_, ?_, GoMap.len_modify _ _ _⟩
  · rw [GoMap.get?_modify, if_pos rfl, hi]
    rfl
  · intro k hk
    rw [GoMap.get?_modify, if_neg hk]

/-- C20. SetHandler and SetRouter are targeted updates: in a reachable registry, on a
message whose type is not registered each ends in `log.Fatal`; on a message whose type is
registered with identifier `id`, each returns, `SetHandler` replaces only the handler field
and `SetRouter` only the router field of the descriptor under `id`, and every other
descriptor, the number of descriptors, the type-to-identifier map and the byte-order flag
are unchanged. -/
theorem SetHandler_SetRouter_targeted (p : Processor) (hp : Reachable p) (msg : Msg) :
    (p.msgID.get? (TypeOf msg) = none →
      (∀ h, p.SetHandler msg h = .error .fatalNotRegistered) ∧
      (∀ r, p.SetRouter msg r = .error .fatalNotRegistered)) ∧
    (∀ id, p.msgID.get? (TypeOf msg) = some id →
      ∃ i, p.msgInfo.get? id = some i ∧
        (∀ h, ∃ q, p.SetHandler msg h = .ok q ∧
          q.msgInfo.get? id = some ⟨i.msgType, i.msgRouter, h, i.msgRawHandler⟩ ∧
          (∀ k, k ≠ id → q.msgInfo.get? k = p.msgInfo.get? k) ∧
          q.msgInfo.len = p.msgInfo.len ∧ q.msgID = p.msgID ∧
          q.littleEndian = p.littleEndian) ∧
        (∀ r, ∃ q, p.SetRouter msg r = .ok q ∧
          q.msgInfo.get? id = some ⟨i.msgType, r, i.msgHandler, i.msgRawHandler⟩ ∧
          (∀ k, k ≠ id → q.msgInfo.get? k = p.msgInfo.get? k) ∧
          q.msgInfo.len = p.msgInfo.len ∧ q.msgID = p.msgID ∧
          q.littleEndian = p.littleEndian)) := by
  constructor
  · intro hn
    constructor
    · intro h; simp only [Processor.SetHandler, hn]
    · intro r; simp only [Processor.SetRouter, hn]
  · intro id hid
    obtain ⟨_, _, hsome⟩ := (reachable_inv p hp).2 _ id hid
    cases hi : p.msgInfo.get? id with
    | none => simp [hi] at hsome
    | some i =>
      refine ⟨i, rfl, ?_, ?_⟩
      · intro h
        obtain ⟨h1, h2, h3⟩ :=
          modify_frame p id (fun i => { i with msgHandler := h }) i hi
        exact ⟨{ p with msgInfo := p.msgInfo.modify id (fun i => { i with msgHandler := h }) },
          by simp only [Processor.SetHandler, hid, hi], h1, h2, h3, rfl, rfl⟩
      · intro r
        obtain ⟨h1, h2, h3⟩ :=
          modify_frame p id (fun i => { i with msgRouter := r }) i hi
        exact ⟨{ p with msgInfo := p.msgInfo.modify id (fun i => { i with msgRouter := r }) },
          by simp only [Processor.SetRouter, hid, hi], h1, h2, h3, rfl, rfl⟩

/-- Witness for C20: `SetHandler(&T0{}, h11)` on `registryAB` and an unregistered type. -/
theorem SetHandler_SetRouter_targeted_witness :
    Reachable registryAB ∧
    registryAB.SetHandler (sampleMsg 5) (some 11) = .error .fatalNotRegistered ∧
    registryAB.SetRouter (sampleMsg 5) (some 12) = .error .fatalNotRegistered ∧
    ∃ i, registryAB.msgInfo.get? 0 = some i ∧
      (∀ h, ∃ q, registryAB.SetHandler (sampleMsg 0) h = .ok q ∧
        q.msgInfo.get? 0 = some ⟨i.msgType, i.msgRouter, h, i.msgRawHandler⟩ ∧
        (∀ k, k ≠ 0 → q.msgInfo.get? k = registryAB.msgInfo.get? k) ∧
        q.msgInfo.len = registryAB.msgInfo.len ∧ q.msgID = registryAB.msgID ∧
        q.littleEndian = registryAB.littleEndian) ∧
      (∀ r, ∃ q, registryAB.SetRouter (sampleMsg 0) r = .ok q ∧
        q.msgInfo.get? 0 = some ⟨i.msgType, r, i.msgHandler, i.msgRawHandler⟩ ∧
        (∀ k, k ≠ 0 → q.msgInfo.get? k = registryAB.msgInfo.get? k) ∧
        q.msgInfo.len = registryAB.msgInfo.len ∧ q.msgID = registryAB.msgID ∧
        q.littleEndian = registryAB.littleEndian) :=
  ⟨reachable_registryAB,
   ((SetHandler_SetRouter_targeted registryAB reachable_registryAB (sampleMsg 5)).1 rfl).1
     (some 11),
   ((SetHandler_SetRouter_targeted registryAB reachable_registryAB (sampleMsg 5)).1 rfl).2
     (some 12),
   (SetHandler_SetRouter_targeted registryAB reachable_registryAB (sampleMsg 0)).2 0 rfl⟩

/-! ## Registry invariant -/

theorem consistent_insert (p : Processor) (e : RType) (id : Nat)
    (hfree : p.msgInfo.get? id = none)
    (ih : ∀ t n, p.msgID.get? t = some n → ∃ i, p.msgInfo.get? n = some i ∧ i.msgType = t) :
    ∀ t n, (p.msgID.set (some (.ptr e)) id).get? t = some n →
      ∃ i, (p.msgInfo.set id (freshInfo (.ptr e))).get? n = some i ∧ i.msgType = t := by
  intro t n ht
  rw [GoMap.get?_set] at ht
  by_cases hte : t = some (.ptr e)
  · simp only [hte, if_true] at ht
    cases ht
    refine ⟨freshInfo (.ptr e), ?_, by rw [hte]; rfl⟩
    rw [GoMap.get?_set, if_pos rfl]
  · simp only [hte, if_false] at ht
    obtain ⟨i, hi, hit⟩ := ih t n ht
    have hne : n ≠ id := by
      intro h
      rw [h, hfree] at hi
      cases hi
    refine ⟨i, ?_, hit⟩
    rw [GoMap.get?_set, if_neg hne]
    exact hi

theorem consistent_modify (p : Processor) (id : Nat) (f : MsgInfo → MsgInfo)
    (hf : ∀ i, (f i).msgType = i.msgType)
    (ih : ∀ t n, p.msgID.get? t = some n → ∃ i, p.msgInfo.get? n = some i ∧ i.msgType = t) :
    ∀ t n, p.msgID.get? t = some n →
      ∃ i, (p.msgInfo.modify id f).get? n = some i ∧ i.msgType = t := by
  intro t n ht
  obtain ⟨i, hi, hit⟩ := ih t n ht
  by_cases hn : n = id
  · subst hn
    refine ⟨f i, ?_, by rw [hf]; exact hit⟩
    rw [GoMap.get?_modify, if_pos rfl, hi]
    rfl
  · refine ⟨i, ?_, hit⟩
    rw [GoMap.get?_modify, if_neg hn]
    exact hi

theorem reachableFresh_consistent (p : Processor) (h : ReachableFresh p) :
    ∀ t n, p.msgID.get? t = some n → ∃ i, p.msgInfo.get? n = some i ∧ i.msgType = t := by
  induction h with
  | new => intro t n ht; cases ht
  | setByteOrder b _ ih => exact ih
  | register _ hfree hr ih =>
    obtain ⟨e, _, _, _, _, hq⟩ := Register_ok _ _ _ _ hr
    subst hq
    exact consistent_insert _ e _ hfree ih
  | registerWithId _ _ hfree hr ih =>
    obtain ⟨e, _, _, _, _, hq⟩ := RegisterWithId_ok _ _ _ _ _ hr
    subst hq
    exact consistent_insert _ e _ hfree ih
  | @setRouter p q msg h _ hr ih =>
    obtain ⟨id, _, hq⟩ := SetRouter_ok _ _ _ _ hr
    subst hq
    exact consistent_modify p id (fun i => { i with msgRouter := h }) (fun _ => rfl) ih
  | @setHandler p q msg h _ hr ih =>
    obtain ⟨id, _, hq⟩ := SetHandler_ok _ _ _ _ hr
    subst hq
    exact consistent_modify p id (fun i => { i with msgHandler := h }) (fun _ => rfl) ih
  | @setRawHandler p q id h _ _ hr ih =>
    have hq := SetRawHandler_ok _ _ _ _ hr
    subst hq
    exact consistent_modify p id (fun i => { i with msgRawHandler := h }) (fun _ => rfl) ih

/-- C11 fails as stated: `registryCollide` is reached from a new processor by the two
calls `RegisterWithId(&T0{}, 7)` and `RegisterWithId(&T1{}, 7)`, which both return; in it
the distinct types `T0` and `T1` map to the same identifier 7, and the descriptor under the
identifier of `T0` records `T1`. -/
theorem registry_invariant_counterexample :
    NewProcessor.RegisterWithId (sampleMsg 0) 7 = .ok (registryOne, 7) ∧
    registryOne.RegisterWithId (sampleMsg 1) 7 = .ok (registryCollide, 7) ∧
    Reachable registryCollide ∧
    registryCollide.msgID.get? (some (.ptr (.named 0))) = some 7 ∧
    registryCollide.msgID.get? (some (.ptr (.named 1))) = some 7 ∧
    RType.ptr (.named 0) ≠ RType.ptr (.named 1) ∧
    registryCollide.msgInfo.get? 7 = some (freshInfo (.ptr (.named 1))) ∧
    (freshInfo (.ptr (.named 1))).msgType ≠ some (.ptr (.named 0)) := by
  refine ⟨rfl, rfl, reachable_registryCollide, rfl, rfl, by decide, rfl, by decide⟩

/-- C11, amended. Registry invariant: in every registry reached from `NewProcessor` by
`Register`, `RegisterWithId`, `SetHandler`, `SetRouter`, `SetRawHandler` (and
`SetByteOrder`) calls that return, where every `Register` and `RegisterWithId` call
returned an identifier that held no descriptor before the call, a registered type maps to
exactly one identifier, distinct registered types map to distinct identifiers, and the
descriptor under a type's identifier records that type. -/
theorem registry_invariant (p : Processor) (hp : ReachableFresh p) :
    (∀ t id1 id2, p.msgID.get? t = some id1 → p.msgID.get? t = some id2 → id1 = id2) ∧
    (∀ t1 t2 id, p.msgID.get? t1 = some id → p.msgID.get? t2 = some id → t1 = t2) ∧
    (∀ t id, p.msgID.get? t = some id →
      ∃ i, p.msgInfo.get? id = some i ∧ i.msgType = t) := by
  have hc := reachableFresh_consistent p hp
  refine ⟨?_, ?_, hc⟩
  · intro t id1 id2 h1 h2
    rw [h1] at h2
    exact Option.some.inj h2
  · intro t1 t2 id h1 h2
    obtain ⟨i1, hi1, ht1⟩ := hc t1 id h1
    obtain ⟨i2, hi2, ht2⟩ := hc t2 id h2
    rw [hi1] at hi2
    cases hi2
    rw [← ht1, ← ht2]

theorem reachableFresh_registryAB : ReachableFresh registryAB :=
  @ReachableFresh.register registryA registryAB (sampleMsg 1) 1
    (@ReachableFresh.register NewProcessor registryA (sampleMsg 0) 0 ReachableFresh.new rfl
      registryAB_steps.1)
    rfl registryAB_steps.2

/-- Witness for the amended C11 on `registryAB`. -/
theorem registry_invariant_witness :
    ReachableFresh registryAB ∧
    (∀ t id1 id2, registryAB.msgID.get? t = some id1 → registryAB.msgID.get? t = some id2 →
      id1 = id2) ∧
    (∀ t1 t2 id, registryAB.msgID.get? t1 = some id → registryAB.msgID.get? t2 = some id →
      t1 = t2) ∧
    (∀ t id, registryAB.msgID.get? t = some id →
      ∃ i, registryAB.msgInfo.get? id = some i ∧ i.msgType = t) :=
  ⟨reachableFresh_registryAB, registry_invariant registryAB reachableFresh_registryAB⟩

/-! ## Calls that only read the registry -/

theorem Stmt.bind_indexMsgInfo {β : Type} (id : Nat) (f : Option MsgInfo → Stmt β)
    (p : Processor) : Stmt.bind (Stmt.indexMsgInfo id) f p = f (p.msgInfo.get? id) p := rfl

theorem Stmt.bind_indexMsgID {β : Type} (t : ReflectType) (f : Option Nat → Stmt β)
    (p : Processor) : Stmt.bind (Stmt.indexMsgID t) f p = f (p.msgID.get? t) p := rfl

theorem Stmt.bind_loadLittleEndian {β : Type} (f : Bool → Stmt β) (p : Processor) :
    Stmt.bind Stmt.loadLittleEndian f p = f p.littleEndian p := rfl

theorem Stmt.bind_rangeMsgInfo {β : Type} (order : MapOrder)
    (f : GoMap Nat MsgInfo → Stmt β) (p : Processor) :
    Stmt.bind (Stmt.rangeMsgInfo order) f p = f (order.visit p.msgInfo) p := rfl

theorem Stmt.bind_lenMsgInfo {β : Type} (f : Nat → Stmt β) (p : Processor) :
    Stmt.bind Stmt.lenMsgInfo f p = f p.msgInfo.len p := rfl

theorem Stmt.ret_apply {α : Type} (a : α) (p : Processor) : Stmt.ret a p = (.ok a, p) := rfl

theorem Stmt.abort_apply {α : Type} (e : Abort) (p : Processor) :
    (Stmt.abort e : Stmt α) p = (.error e, p) := rfl

theorem Stateful_Route_eq (p : Processor) (msg : Msg) (userData : UserData) :
    Stateful.Route msg userData p = (p.Route msg userData, p) := by
  cases msg with
  | raw r =>
    simp only [Stateful.Route, Processor.Route, Stmt.bind_indexMsgInfo]
    cases p.msgInfo.get? r.msgID with
    | none => rfl
    | some i =>
      simp only
      cases i.msgRawHandler with
      | none => rfl
      | some h => rfl
  | nil =>
    simp only [Stateful.Route, Processor.Route, Stmt.bind_indexMsgID]
    cases p.msgID.get? (TypeOf Msg.nil) with
    | none => rfl
    | some id =>
      simp only [Stmt.bind_indexMsgInfo]
      cases p.msgInfo.get? id with
      | none => rfl
      | some i => rfl
  | obj t c =>
    simp only [Stateful.Route, Processor.Route, Stmt.bind_indexMsgID]
    cases p.msgID.get? (TypeOf (Msg.obj t c)) with
    | none => rfl
    | some id =>
      simp only [Stmt.bind_indexMsgInfo]
      cases p.msgInfo.get? id with
      | none => rfl
      | some i => rfl

theorem Stateful_Unmarshal_eq (pb : Codec) (p : Processor) (data : List Nat) :
    Stateful.Unmarshal pb data p = (p.Unmarshal pb data, p) := by
  unfold Stateful.Unmarshal Processor.Unmarshal
  by_cases hlen : data.length < 2
  · simp only [hlen, if_true]
    rfl
  · simp only [hlen, if_false, Stmt.bind_loadLittleEndian]
    cases (if p.littleEndian = true then LittleEndianUint16 data
      else BigEndianUint16 data) with
    | none => rfl
    | some id =>
      simp only [Stmt.bind_indexMsgInfo]
      cases p.msgInfo.get? id with
      | none => rfl
      | some i =>
        simp only
        by_cases hr : i.msgRawHandler.isSome = true
        · simp only [hr, if_true]
          rfl
        · simp only [hr]
          cases i.msgType with
          | none => rfl
          | some t =>
            cases t with
            | msgRaw => rfl
            | named n => rfl
            | ptr e => rfl

theorem Stateful_Marshal_eq (pb : Codec) (p : Processor) (msg : Msg) :
    Stateful.Marshal pb msg p = (p.Marshal pb msg, p) := by
  simp only [Stateful.Marshal, Processor.Marshal, Stmt.bind_indexMsgID]
  cases p.msgID.get? (TypeOf msg) with
  | none => rfl
  | some id =>
    simp only [Stmt.bind_loadLittleEndian]
    cases msg with
    | nil => rfl
    | raw r => rfl
    | obj t c => rfl

theorem Stateful_GetMsgInfoMsgType_eq (p : Processor) (id : Nat) :
    Stateful.GetMsgInfoMsgType id p = (p.GetMsgInfoMsgType id, p) := by
  simp only [Stateful.GetMsgInfoMsgType, Processor.GetMsgInfoMsgType,
    Stmt.bind_indexMsgInfo]
  cases p.msgInfo.get? id with
  | none => rfl
  | some i => rfl

theorem Stateful_SetByteOrder_eq (p : Processor) (b : Bool) :
    Stateful.SetByteOrder b p = (.ok (), p.SetByteOrder b) := rfl

theorem Stateful_SetRawHandler_eq (p : Processor) (id : Nat) (h : MsgHandler) :
    Stateful.SetRawHandler id h p =
      match p.SetRawHandler id h with
      | .ok q => (.ok (), q)
      | .error e => (.error e, p) := by
  unfold Stateful.SetRawHandler Processor.SetRawHandler
  rw [Stmt.bind_lenMsgInfo]
  by_cases hl : id ≥ uint16 p.msgInfo.len
  · simp only [hl, if_true]
    rfl
  · simp only [hl, if_false, Stmt.bind_indexMsgInfo]
    cases p.msgInfo.get? id with
    | none => rfl
    | some i => rfl

theorem Stateful_writes :
    (Stateful.SetByteOrder true NewProcessor).2 ≠ NewProcessor ∧
    (Stateful.SetRawHandler 0 (some 9) registryAB).2 ≠ registryAB := by
  constructor <;> decide

theorem Range_orders_differ :
    registryAB.Range MapOrder.stored ≠ registryAB.Range MapOrder.reversed := by
  decide

/-- C15. The registry is read-only after registration: run on any processor, with any
message, frame, connection context and iteration order, each of `Route`, `Unmarshal`,
`Marshal`, `Range`, `GetId` and `GetMsgInfoMsgType` leaves the processor (both maps, every
descriptor and the byte-order flag) as it was, whether it returns or aborts, and returns
what the function returns on that processor; so a `Route` call made after another `Route`
call returns what it returns when made alone. -/
theorem registry_read_only (pb : Codec) (p : Processor) :
    (∀ msg userData, Stateful.Route msg userData p = (p.Route msg userData, p)) ∧
    (∀ data, Stateful.Unmarshal pb data p = (p.Unmarshal pb data, p)) ∧
    (∀ msg, Stateful.Marshal pb msg p = (p.Marshal pb msg, p)) ∧
    (∀ order, Stateful.Range order p = (.ok (p.Range order), p)) ∧
    (∀ msgType, Stateful.GetId msgType p = (.ok (p.GetId msgType), p)) ∧
    (∀ id, Stateful.GetMsgInfoMsgType id p = (p.GetMsgInfoMsgType id, p)) ∧
    (∀ m1 u1 m2 u2,
      (Stateful.Route m2 u2 (Stateful.Route m1 u1 p).2).1 = p.Route m2 u2 ∧
      (Stateful.Route m1 u1 (Stateful.Route m2 u2 p).2).1 = p.Route m1 u1) := by
  refine ⟨Stateful_Route_eq p, Stateful_Unmarshal_eq pb p, Stateful_Marshal_eq pb p,
    fun _ => rfl, fun _ => rfl, Stateful_GetMsgInfoMsgType_eq p, ?_⟩
  intro m1 u1 m2 u2
  constructor
  · rw [Stateful_Route_eq p m1 u1, Stateful_Route_eq p m2 u2]
  · rw [Stateful_Route_eq p m2 u2, Stateful_Route_eq p m1 u1]

end protobuf

namespace gate

open protobuf

/-! ## Gate.Run -/

/-- C16. Gate.Run listener lifecycle: `Run` starts the WebSocket server exactly when
`WSAddr` is not empty and the TCP server exactly when `TCPAddr` is not empty, each with the
gate's `MaxConnNum`, `PendingWriteNum` and `MaxMsgLen` (and `HTTPTimeout`, `CertFile`,
`KeyFile` for WebSocket; `LenMsgLen`, `LittleEndian` for TCP); it makes no other call
before the receive on `closeSig`, and after it closes the servers it started, once each. -/
theorem Run_listener_lifecycle (g : Gate) :
    (∀ closeSig, g.WSAddr = "" → g.TCPAddr = "" →
      g.Run closeSig = if closeSig then [.closeSig] else []) ∧
    (∀ closeSig, g.WSAddr ≠ "" → g.TCPAddr = "" →
      g.Run closeSig =
        .wsStart ⟨g.WSAddr, g.MaxConnNum, g.PendingWriteNum, g.MaxMsgLen, g.HTTPTimeout,
                  g.CertFile, g.KeyFile⟩ ::
        (if closeSig then [.closeSig, .wsClose] else [])) ∧
    (∀ closeSig, g.WSAddr = "" → g.TCPAddr ≠ "" →
      g.Run closeSig =
        .tcpStart ⟨g.TCPAddr, g.MaxConnNum, g.PendingWriteNum, g.LenMsgLen, g.MaxMsgLen,
                   g.LittleEndian⟩ ::
        (if closeSig then [.closeSig, .tcpClose] else [])) ∧
    (∀ closeSig, g.WSAddr ≠ "" → g.TCPAddr ≠ "" →
      g.Run closeSig =
        .wsStart ⟨g.WSAddr, g.MaxConnNum, g.PendingWriteNum, g.MaxMsgLen, g.HTTPTimeout,
                  g.CertFile, g.KeyFile⟩ ::
        .tcpStart ⟨g.TCPAddr, g.MaxConnNum, g.PendingWriteNum, g.LenMsgLen, g.MaxMsgLen,
                   g.LittleEndian⟩ ::
        (if closeSig then [.closeSig, .wsClose, .tcpClose] else [])) := by
  refine ⟨?_, ?_, ?_, ?_⟩ <;> intro closeSig hw ht <;> cases closeSig <;>
    simp [Gate.Run, hw, ht]

/-- Witness for C16: `sampleGate` has both addresses set. -/
theorem Run_listener_lifecycle_witness :
    sampleGate.Run true =
      [.wsStart ⟨":8080", 100, 10, 4096, 5, "", ""⟩,
       .tcpStart ⟨":9090", 100, 10, 2, 4096, false⟩,
       .closeSig, .wsClose, .tcpClose] :=
  (Run_listener_lifecycle sampleGate).2.2.2 true (by decide) (by decide)

/-! ## The read loop -/

theorem Run_routed_append (a : agent) (self : UserData) (c : Nat) (g : Gate)
    (P : network.Processor) (ha : a.conn = some c) (hg : a.gate = some g)
    (hP : g.Processor = some P) (good : List (List Nat))
    (hgood : ∀ f ∈ good, ∃ m, P.Unmarshal f = .ok (m, none) ∧
      P.Route (m.getD .nil) self = .ok none)
    (tail : List (List Nat)) :
    a.Run self (good ++ tail) =
      (routedCalls P c self good ++ (a.Run self tail).1, (a.Run self tail).2) := by
  induction good with
  | nil => rfl
  | cons f fs ih =>
    obtain ⟨m, hm, hr⟩ := hgood f (List.mem_cons_self _ _)
    have ih2 := ih (fun f2 hf2 => hgood f2 (List.mem_cons_of_mem _ hf2))
    rw [List.cons_append]
    simp only [agent.Run, ha, hg, hP, hm, hr, ih2, routedCalls, List.cons_append]

/-- C13. The agent read loop is fail-fast: for an agent with a connection and a processor,
when the frames `good` are all decoded and routed without error, then (1) on the frames
`good` followed by a read error `Run` returns after reading, decoding and routing each frame
once, in order, with the agent as connection context, and then the failing read; (2) when
the next frame `bad` gets an error from `Unmarshal`, `Run` returns after
reading and decoding `bad`, without routing it; (3) when `bad` is decoded and gets an error
from `Route`, `Run` returns after that `Route` call. In (2) and (3) nothing is read, decoded
or routed after `bad`, whatever frames follow. -/
theorem Run_fail_fast (a : agent) (self : UserData) (c : Nat) (g : Gate)
    (P : network.Processor) (ha : a.conn = some c) (hg : a.gate = some g)
    (hP : g.Processor = some P) (good : List (List Nat))
    (hgood : ∀ f ∈ good, ∃ m, P.Unmarshal f = .ok (m, none) ∧
      P.Route (m.getD .nil) self = .ok none) :
    a.Run self good = (routedCalls P c self good ++ [.ReadMsg c none], none) ∧
    (∀ bad rest m e, P.Unmarshal bad = .ok (m, some e) →
      a.Run self (good ++ bad :: rest) =
        (routedCalls P c self good ++ [.ReadMsg c (some bad), .Unmarshal bad], none)) ∧
    (∀ bad rest m e, P.Unmarshal bad = .ok (m, none) →
      P.Route (m.getD .nil) self = .ok (some e) →
      a.Run self (good ++ bad :: rest) =
        (routedCalls P c self good ++
          [.ReadMsg c (some bad), .Unmarshal bad, .Route (m.getD .nil) self], none)) := by
  refine ⟨?_, ?_, ?_⟩
  · have h := Run_routed_append a self c g P ha hg hP good hgood []
    rw [List.append_nil] at h
    rw [h]
    simp only [agent.Run, ha]
  · intro bad rest m e hm
    rw [Run_routed_append a self c g P ha hg hP good hgood (bad :: rest)]
    simp only [agent.Run, ha, hg, hP, hm]
  · intro bad rest m e hm hr
    rw [Run_routed_append a self c g P ha hg hP good hgood (bad :: rest)]
    simp only [agent.Run, ha, hg, hP, hm, hr]

theorem sampleAgent_good :
    ∀ f ∈ [[0, 0, 1], [0, 1]], ∃ m,
      (ofProtobuf plainCodec registryAB).Unmarshal f = .ok (m, none) ∧
      (ofProtobuf plainCodec registryAB).Route (m.getD .nil) 77 = .ok none := by
  intro f hf
  simp only [List.mem_cons, List.mem_singleton, List.not_mem_nil, or_false] at hf
  rcases hf with rfl | rfl
  · exact ⟨some (.obj (.ptr (.named 0)) [1]), rfl, rfl⟩
  · exact ⟨some (.obj (.ptr (.named 1)) []), rfl, rfl⟩

/-- Witness for C13: `sampleAgent` reads two frames of registered types, then a frame with
the unknown identifier 5; the frame after it is never read. -/
theorem Run_fail_fast_witness :
    sampleAgent.Run 77 ([[0, 0, 1], [0, 1]] ++ [0, 5] :: [[0, 0]]) =
      ([.ReadMsg 3 (some [0, 0, 1]), .Unmarshal [0, 0, 1],
        .Route (.obj (.ptr (.named 0)) [1]) 77,
        .ReadMsg 3 (some [0, 1]), .Unmarshal [0, 1],
        .Route (.obj (.ptr (.named 1)) []) 77,
        .ReadMsg 3 (some [0, 5]), .Unmarshal [0, 5]], none) :=
  (Run_fail_fast sampleAgent 77 3 sampleGate (ofProtobuf plainCodec registryAB) rfl rfl rfl
    [[0, 0, 1], [0, 1]] sampleAgent_good).2.1 [0, 5] [[0, 0]] none .dataTooShort rfl

/-! ## WriteMsg -/

/-- C14. WriteMsg is fire-and-forget: for an agent with a connection and a processor, when
`Marshal` returns segments and no error `WriteMsg` makes exactly one connection write, with
those segments in order, and returns whatever the write returned; when `Marshal` returns an
error `WriteMsg` makes no connection write and returns; in both cases the agent is left as
it was. -/
theorem WriteMsg_fire_and_forget (a : agent) (c : Nat) (g : Gate) (P : network.Processor)
    (ha : a.conn = some c) (hg : a.gate = some g) (hP : g.Processor = some P) (msg : Msg)
    (connWriteMsg : List (List Nat) → Option GoError) :
    (∀ segs, P.Marshal msg = .ok (segs, none) →
      a.WriteMsg msg connWriteMsg =
        (a, [.Marshal msg, .WriteMsg c (segs.getD []) (connWriteMsg (segs.getD []))], none)) ∧
    (∀ segs e, P.Marshal msg = .ok (segs, some e) →
      a.WriteMsg msg connWriteMsg = (a, [.Marshal msg], none)) := by
  constructor
  · intro segs hm
    simp only [agent.WriteMsg, hg, hP, hm, ha]
  · intro segs e hm
    simp only [agent.WriteMsg, hg, hP, hm]

/-- Witness for C14: `sampleAgent` writes a message of a registered type on a connection
whose write fails, and a message of an unregistered type. -/
theorem WriteMsg_fire_and_forget_witness :
    sampleAgent.WriteMsg (.obj (.ptr (.named 1)) [7, 8]) (fun _ => some (.conn 1)) =
      (sampleAgent,
       [.Marshal (.obj (.ptr (.named 1)) [7, 8]),
        .WriteMsg 3 [[0, 1], [7, 8]] (some (.conn 1))], none) ∧
    sampleAgent.WriteMsg (.obj (.ptr (.named 5)) [7, 8]) (fun _ => none) =
      (sampleAgent, [.Marshal (.obj (.ptr (.named 5)) [7, 8])], none) :=
  ⟨(WriteMsg_fire_and_forget sampleAgent 3 sampleGate (ofProtobuf plainCodec registryAB)
      rfl rfl rfl (.obj (.ptr (.named 1)) [7, 8]) (fun _ => some (.conn 1))).1
      (some [[0, 1], [7, 8]]) rfl,
   (WriteMsg_fire_and_forget sampleAgent 3 sampleGate (ofProtobuf plainCodec registryAB)
      rfl rfl rfl (.obj (.ptr (.named 5)) [7, 8]) (fun _ => none)).2
      none (.marshalNotRegistered (some (.ptr (.named 5)))) rfl⟩

end gate
